import Mathlib

/-!
Verification development for the `VSCode_create_project` repository
(`cpp_proj_manager.py`, `create_project.py`, `install_cmake.py`).

The Python sources are shallowly embedded as executable Lean definitions:

* pure string manipulation (`extract_version`, `str.strip`, f-string
  interpolation, `re.sub`) is translated into Lean functions on `String` /
  `List Char`;
* the operating system (OS identity, `subprocess.run`) is an explicit
  environment value `Env` passed to each function, with process spawning
  modelled as a total function from a command line to a `SpawnResult`
  (captured output, or the `FileNotFoundError` / `PermissionError` that
  `subprocess.run` raises when the executable is absent / not startable);
* the filesystem is a map from path segments to file contents, threaded
  through the scaffolding and reconciliation functions; Python exceptions
  are modelled with `Except` / an error component, keeping partial writes.

Python's `\d` and `\w` regex classes are modelled at ASCII (the inputs of
interest — tool banners, JSON config files — are ASCII).
-/

/-! ## Python string helpers -/

/-- Python `str.lower()` (ASCII). -/
def pyLower (s : String) : String := ⟨s.data.map Char.toLower⟩

/-- Python whitespace (the characters stripped by `str.strip()`):
space, tab, newline, carriage return, form feed, vertical tab. -/
def pyWs (c : Char) : Bool :=
  c = ' ' || c = '\t' || c = '\n' || c = '\r' || c = '\x0b' || c = '\x0c'

/-- Python `str.strip()`: drop leading and trailing whitespace. -/
def pyStrip (s : String) : String :=
  ⟨((s.data.dropWhile pyWs).reverse.dropWhile pyWs).reverse⟩

/-- Python f-string interpolation of a value that is either a string or
`None`: `f"{x}"` yields the string itself, or the four characters `None`. -/
def pyFStr : Option String → String
  | some s => s
  | none => "None"

/-- Python `a or b` on strings: `b` if `a` is empty, else `a`
(line 30 of `cpp_proj_manager.py`: `result.stdout or result.stderr`). -/
def pyOrStr (a b : String) : String := if a = "" then b else a

/-! ## `extract_version` (cpp_proj_manager.py lines 18-25)

```python
def extract_version(output):
    version_pattern = r"\b(\d+\.\d+\.\d+|\d+\.\d+|\d+)\b"
    match = re.search(version_pattern, output)
    if match:
        return match.group(0)
    else:
        return None
```

`re.search` scans positions left to right and, at the first position where
the pattern matches, tries the alternatives in order.  Each alternative is
a sequence of greedy `\d+` atoms separated by literal dots, bracketed by
word boundaries.  Greedy `\d+` with no backtracking is exact here: a
shorter-than-maximal digit run is followed by a digit, which can satisfy
neither the following `\.` nor the closing `\b`, so only the maximal run
can extend to a match. -/

/-- Python regex `\d` (ASCII). -/
def isPyDigit (c : Char) : Bool := '0' ≤ c && c ≤ '9'

/-- Python regex word character `\w` (ASCII): letters, digits, underscore. -/
def isPyWord (c : Char) : Bool :=
  isPyDigit c || ('a' ≤ c && c ≤ 'z') || ('A' ≤ c && c ≤ 'Z') || c = '_'

/-- Maximal digit run: `\d*` as (matched digits, rest). -/
def takeDigits : List Char → List Char × List Char
  | [] => ([], [])
  | c :: t =>
    if isPyDigit c then
      let (d, r) := takeDigits t
      (c :: d, r)
    else ([], c :: t)

/-- The closing `\b` of the version pattern: the match ends at the end of
the input or before a non-word character (the last matched character is
always a digit, hence a word character). -/
def boundaryAfter : List Char → Bool
  | [] => true
  | c :: _ => !isPyWord c

/-- Alternative `\d+\.\d+\.\d+` (with the closing `\b`) at the current
position; returns the matched token. -/
def matchThree (s : List Char) : Option (List Char) :=
  let (d1, r1) := takeDigits s
  if d1.isEmpty then none else
  match r1 with
  | '.' :: r2 =>
    let (d2, r3) := takeDigits r2
    if d2.isEmpty then none else
    match r3 with
    | '.' :: r4 =>
      let (d3, r5) := takeDigits r4
      if d3.isEmpty then none else
      if boundaryAfter r5 then some (d1 ++ '.' :: d2 ++ '.' :: d3) else none
    | _ => none
  | _ => none

/-- Alternative `\d+\.\d+` (with the closing `\b`) at the current position. -/
def matchTwo (s : List Char) : Option (List Char) :=
  let (d1, r1) := takeDigits s
  if d1.isEmpty then none else
  match r1 with
  | '.' :: r2 =>
    let (d2, r3) := takeDigits r2
    if d2.isEmpty then none else
    if boundaryAfter r3 then some (d1 ++ '.' :: d2) else none
  | _ => none

/-- Alternative `\d+` (with the closing `\b`) at the current position. -/
def matchOne (s : List Char) : Option (List Char) :=
  let (d1, r1) := takeDigits s
  if d1.isEmpty then none else
  if boundaryAfter r1 then some d1 else none

/-- The opening `\b`: every alternative starts with a digit (a word
character), so the boundary holds iff the preceding character (`none` at
the start of the string) is absent or not a word character. -/
def boundaryBefore : Option Char → Bool
  | none => true
  | some c => !isPyWord c

/-- The whole pattern `\b(\d+\.\d+\.\d+|\d+\.\d+|\d+)\b` at one position:
alternatives are tried in order, as `re` does. -/
def tokenAt (prev : Option Char) (s : List Char) : Option (List Char) :=
  if boundaryBefore prev then
    match matchThree s with
    | some t => some t
    | none =>
      match matchTwo s with
      | some t => some t
      | none => matchOne s
  else none

/-- `re.search`: scan positions left to right, keeping the previous
character for the `\b` test; return the first (leftmost) match. -/
def searchFrom : Option Char → List Char → Option (List Char)
  | _, [] => none
  | prev, c :: t =>
    match tokenAt prev (c :: t) with
    | some tok => some tok
    | none => searchFrom (some c) t

/-- `extract_version` (cpp_proj_manager.py lines 18-25). -/
def extract_version (output : String) : Option String :=
  (searchFrom none output.data).map fun l => ⟨l⟩

/-! ## Environment: operating system and process spawning

`os.name` / `platform.system()` and `subprocess.run` are the external
collaborators; they are modelled as an explicit environment value.
`subprocess.run(cmd, stdout=PIPE, stderr=PIPE, text=True)` (no
`check=True`) either returns captured output — whatever the exit status —
or raises `FileNotFoundError` (executable absent) or another `OSError`
such as `PermissionError` (executable present but not startable). -/

/-- Outcome of `subprocess.run` on a command line. -/
inductive SpawnResult where
  | ok (stdout stderr : String)
  | fileNotFound
  | permissionDenied
deriving DecidableEq

/-- A Python exception that escapes one of the embedded functions.
`reError` stands for the exceptions raised while processing a `re.sub`
replacement template (`re.error` for bad escapes and bad/invalid group
references, `IndexError` for an unknown group name) — the program
catches none of them, so they are observationally one error. -/
inductive PyErr where
  | fileNotFound
  | permissionDenied
  | reError
deriving DecidableEq

/-- Decidable equality for embedded `Except` results. -/
instance exceptDecEq {e a : Type} [DecidableEq e] [DecidableEq a] :
    DecidableEq (Except e a) := fun x y =>
  match x, y with
  | .ok v, .ok w => if h : v = w then isTrue (by rw [h]) else isFalse (by simp [h])
  | .error v, .error w => if h : v = w then isTrue (by rw [h]) else isFalse (by simp [h])
  | .ok _, .error _ => isFalse (by simp)
  | .error _, .ok _ => isFalse (by simp)

/-- The host machine: identity strings read by `detect_os` and the
process-spawning facility. -/
structure Env where
  os_name : String
  platform_system : String
  run : List String → SpawnResult

/-- Substring test (`"darwin" in s` in Python). -/
def listContainsSeq (pat : List Char) : List Char → Bool
  | [] => pat.isEmpty
  | c :: t => pat.isPrefixOf (c :: t) || listContainsSeq pat t

/-- `detect_os` (cpp_proj_manager.py lines 6-16). -/
def detect_os (env : Env) : String :=
  if env.os_name = "nt" then "Windows"
  else if env.os_name = "posix" then
    if listContainsSeq "darwin".data (pyLower env.platform_system).data then "macOS"
    else "Linux"
  else "Unknown"

/-- `check_tool`'s result dictionary (spec: `ToolProbeResult`). -/
structure ProbeResult where
  name : String
  found : Bool
  version : Option String
  message : String
deriving DecidableEq

/-- `check_tool` (cpp_proj_manager.py lines 27-44).  Only
`FileNotFoundError` is caught; any other spawn failure propagates. -/
def check_tool (env : Env) (tool_name : String) (check_command : List String) :
    Except PyErr ProbeResult :=
  match env.run check_command with
  | .ok out err =>
    let version := extract_version (pyOrStr out err)
    .ok { name := tool_name
          found := true
          version := some (version.getD "Unknown")
          message := tool_name ++ " is installed. Version: " ++ version.getD "Unknown" }
  | .fileNotFound =>
    .ok { name := tool_name
          found := false
          version := none
          message := tool_name ++ " is not installed." }
  | .permissionDenied => .error .permissionDenied

/-- `result.stdout.strip()` followed by `tool_path if tool_path else None`. -/
def stripToOption (out : String) : Option String :=
  let t := pyStrip out
  if t = "" then none else some t

/-- `find_tool_path` (cpp_proj_manager.py lines 46-59).  The `except
subprocess.CalledProcessError` clause is dead code (`run` is called
without `check=True`), so spawn failures of the `which`/`where` facility
itself propagate. -/
def find_tool_path (env : Env) (tool_name : String) : Except PyErr (Option String) :=
  let os_type := detect_os env
  if os_type = "Windows" then
    match env.run ["where", tool_name] with
    | .ok out _ => .ok (stripToOption out)
    | .fileNotFound => .error .fileNotFound
    | .permissionDenied => .error .permissionDenied
  else if os_type = "Linux" ∨ os_type = "macOS" then
    match env.run ["which", tool_name] with
    | .ok out _ => .ok (stripToOption out)
    | .fileNotFound => .error .fileNotFound
    | .permissionDenied => .error .permissionDenied
  else .ok none

/-- The platform-specific probe list (cpp_proj_manager.py lines 63-76). -/
def toolsFor (os_type : String) : Option (List (String × List String)) :=
  if os_type = "Windows" then
    some [("CMake", ["cmake", "--version"]),
          ("MSVC", ["cl"]),
          ("GDB", ["gdb", "--version"])]
  else if os_type = "macOS" ∨ os_type = "Linux" then
    some [("CMake", ["cmake", "--version"]),
          ("GCC", ["gcc", "--version"]),
          ("G++", ["g++", "--version"]),
          ("GDB", ["gdb", "--version"])]
  else none

/-- The probe loop of `check_all_tools` (lines 86-96): fold the probe
results into the three flags and the missing-tool list. -/
def foldTools (env : Env) :
    List (String × List String) → Bool × Bool × Bool × List String →
    Except PyErr (Bool × Bool × Bool × List String)
  | [], st => .ok st
  | (n, cmd) :: ts, (c, d, k, m) =>
    match check_tool env n cmd with
    | .error e => .error e
    | .ok r =>
      foldTools env ts
        (if n ∈ ["GCC", "G++", "MSVC"] ∧ r.found then true else c,
         if n ∈ ["GDB"] ∧ r.found then true else d,
         if n = "CMake" ∧ r.found then true else k,
         if r.found then m else m ++ [n])

/-- `check_all_tools` (cpp_proj_manager.py lines 61-98).  On an unknown
platform it prints a diagnostic and falls off the end of the function,
returning Python `None` — modelled as `Option` of the 4-tuple. -/
def check_all_tools (env : Env) :
    Except PyErr (Option (Bool × Bool × Bool × List String)) :=
  match toolsFor (detect_os env) with
  | none => .ok none
  | some ts => (foldTools env ts (false, false, false, [])).map some

/-- An error escaping `main`: a propagated spawn failure, or the
`TypeError` raised by unpacking `None` into four variables. -/
inductive MainErr where
  | pyErr (e : PyErr)
  | typeError
deriving DecidableEq

/-- The unpacking `compilers_found, debuggers_found, cmake_found,
missing_tools = check_all_tools()` at cpp_proj_manager.py line 269:
unpacking Python `None` raises `TypeError`. -/
def main_inventory (env : Env) :
    Except MainErr (Bool × Bool × Bool × List String) :=
  match check_all_tools env with
  | .error e => .error (.pyErr e)
  | .ok none => .error .typeError
  | .ok (some inv) => .ok inv

/-! ## `re.sub` for the reconciler patterns

`edit_project_configurations` rewrites config files with
`re.sub(r'"compilerPath":\s*".*?"', ...)` and
`re.sub(r'"miDebuggerPath":\s*".*?"', ...)`.  Both patterns are a literal
key (`"compilerPath":` / `"miDebuggerPath":`), greedy `\s*`, an opening
quote, a lazy `.*?`, and a closing quote.  Greedy `\s*` followed by `"` is
exact without backtracking (a shorter whitespace run is followed by a
whitespace character, not a quote), and lazy `.*?"` consumes exactly up to
the first following quote, failing on a newline (`.` does not match
`\n`).  `re.sub` replaces every non-overlapping occurrence, scanning left
to right and resuming after each replacement.  The replacement string is
first parsed as a template (`sre_parse.parse_template`): backslash
escapes are processed eagerly — before any match is attempted — so a bad
escape raises `re.error` even when the pattern matches nothing, and
`\g<0>` references the whole match; the expansion is performed at every
match. -/

/-- Outcome of running a sub-pattern on a prefix of the input: a match
with the rest of the input, a definite failure, or exhaustion of the
input before the pattern could be decided. -/
inductive MatchRes where
  | matched (rest : List Char)
  | failed
  | ranOut
deriving DecidableEq

/-- Sequencing of sub-pattern outcomes. -/
def MatchRes.andThen (m : MatchRes) (f : List Char → MatchRes) : MatchRes :=
  match m with
  | .matched r => f r
  | .failed => .failed
  | .ranOut => .ranOut

/-- Match a literal. -/
def matchLit : List Char → List Char → MatchRes
  | [], s => .matched s
  | _ :: _, [] => .ranOut
  | p :: ps, c :: cs => if c = p then matchLit ps cs else .failed

/-- Match `\s*"`: greedily skip Python regex whitespace, then require a
double quote. -/
def matchWsQuote : List Char → MatchRes
  | [] => .ranOut
  | c :: cs =>
    if c = '\x22' then .matched cs
    else if pyWs c then matchWsQuote cs
    else .failed

/-- Match `.*?"`: lazily consume characters up to the first double quote;
`.` does not match a newline. -/
def matchValue : List Char → MatchRes
  | [] => .ranOut
  | c :: cs =>
    if c = '\x22' then .matched cs
    else if c = '\n' then .failed
    else matchValue cs

/-- The whole pattern `LIT\s*".*?"` at the current position. -/
def tryMatchCore (lit s : List Char) : MatchRes :=
  (matchLit lit s).andThen fun r => (matchWsQuote r).andThen matchValue

/-- The pattern as an `Option`: the rest of the input after a match. -/
def tryMatch (lit s : List Char) : Option (List Char) :=
  match tryMatchCore lit s with
  | .matched r => some r
  | _ => none

/-- ASCII letter (the bad-escape rule of replacement templates). -/
def isAsciiLetter (c : Char) : Bool :=
  ('a' ≤ c && c ≤ 'z') || ('A' ≤ c && c ≤ 'Z')

/-- Octal digit. -/
def isOctDigit (c : Char) : Bool := '0' ≤ c && c ≤ '7'

/-- Value of a decimal/octal digit. -/
def digitVal (c : Char) : Nat := c.toNat - '0'.toNat

/-- One item of a parsed `re.sub` replacement template: a literal
character, or a reference to group 0, the whole match (the reconciler's
two patterns contain no capturing groups, so no other group can be
referenced without an error). -/
inductive TmplItem where
  | ch (c : Char)
  | group0

/-- Decimal digits with single underscores allowed between digits, as
accepted by Python `int()` (ASCII). -/
def digitsVal : List Char → Nat → Option Nat
  | [], acc => some acc
  | c :: t, acc =>
    if isPyDigit c then digitsVal t (acc * 10 + digitVal c)
    else if c = '_' then
      match t with
      | d :: t2 =>
        if isPyDigit d then digitsVal t2 (acc * 10 + digitVal d) else none
      | [] => none
    else none

/-- Python `int()` on a `\g<...>` group name (modelled at ASCII):
optional surrounding whitespace, optional sign, then digits with single
underscores between digits; `none` models `ValueError`. -/
def pyIntOfName (nm : List Char) : Option Int :=
  let s1 := ((nm.dropWhile pyWs).reverse.dropWhile pyWs).reverse
  match s1 with
  | '+' :: rest =>
    match rest with
    | c :: _ => if isPyDigit c then (digitsVal rest 0).map Int.ofNat else none
    | [] => none
  | '-' :: rest =>
    match rest with
    | c :: _ =>
      if isPyDigit c then (digitsVal rest 0).map fun n => -(n : Int) else none
    | [] => none
  | c :: _ => if isPyDigit c then (digitsVal s1 0).map Int.ofNat else none
  | [] => none

/-- `sre_parse.parse_template` for a pattern with no capturing groups:
processes the escapes of a string replacement.  `\\`, the character
escapes `\a \b \f \n \r \t \v`, octal escapes (`\0..`, `\ddd`),
and `\g<0>` (in all spellings Python `int()` accepts) are expanded; an
unknown escape of an ASCII letter, a reference to a nonzero group, a
malformed `\g`, or a trailing backslash is an error (raised eagerly,
before any match is attempted); an unknown escape of a non-letter is
kept verbatim.  The fuel, initialized to the template length, is spent
one per step, each of which consumes at least one character, keeping the
recursion structural. -/
def parseEsc (k : List Char → Except PyErr (List TmplItem)) :
    List Char → Except PyErr (List TmplItem)
      | [] => .error .reError
      | c :: cs =>
        if c = '\\' then (k cs).map (.ch '\\' :: ·)
        else if c = 'a' then (k cs).map (.ch '\x07' :: ·)
        else if c = 'b' then (k cs).map (.ch '\x08' :: ·)
        else if c = 'f' then (k cs).map (.ch '\x0c' :: ·)
        else if c = 'n' then (k cs).map (.ch '\n' :: ·)
        else if c = 'r' then (k cs).map (.ch '\r' :: ·)
        else if c = 't' then (k cs).map (.ch '\t' :: ·)
        else if c = 'v' then (k cs).map (.ch '\x0b' :: ·)
        else if c = 'g' then
          match cs with
          | '<' :: cs2 =>
            let nm := cs2.takeWhile fun x => !(x = '>')
            match cs2.dropWhile fun x => !(x = '>') with
            | '>' :: cs3 =>
              if nm.isEmpty then .error .reError
              else
                match pyIntOfName nm with
                | some i =>
                  if i = 0 then (k cs3).map (.group0 :: ·)
                  else .error .reError
                | none => .error .reError
            | _ => .error .reError
          | _ => .error .reError
        else if c = '0' then
          match cs with
          | d1 :: cs2 =>
            if isOctDigit d1 then
              match cs2 with
              | d2 :: cs3 =>
                if isOctDigit d2 then
                  (k cs3).map
                    (.ch (Char.ofNat (digitVal d1 * 8 + digitVal d2)) :: ·)
                else
                  (k cs2).map
                    (.ch (Char.ofNat (digitVal d1)) :: ·)
              | [] =>
                (k cs2).map
                  (.ch (Char.ofNat (digitVal d1)) :: ·)
            else (k cs).map (.ch (Char.ofNat 0) :: ·)
          | [] => (k cs).map (.ch (Char.ofNat 0) :: ·)
        else if isPyDigit c then
          match cs with
          | d2 :: cs2 =>
            if isPyDigit d2 then
              match cs2 with
              | d3 :: cs3 =>
                if isOctDigit c && isOctDigit d2 && isOctDigit d3 then
                  let v := digitVal c * 64 + digitVal d2 * 8 + digitVal d3
                  if v > 255 then .error .reError
                  else (k cs3).map (.ch (Char.ofNat v) :: ·)
                else .error .reError
              | [] => .error .reError
            else .error .reError
          | [] => .error .reError
        else if isAsciiLetter c then .error .reError
        else (k cs).map fun l => .ch '\\' :: .ch c :: l
    
def parse_templateAux : Nat → List Char → Except PyErr (List TmplItem)
  | _, [] => .ok []
  | 0, _ :: _ => .error .reError
  | fuel + 1, c0 :: rest =>
    if c0 = '\\' then parseEsc (parse_templateAux fuel) rest
    else (parse_templateAux fuel rest).map (.ch c0 :: ·)

/-- Parse a `re.sub` string replacement. -/
def parse_template (repl : List Char) : Except PyErr (List TmplItem) :=
  parse_templateAux repl.length repl

/-- Expand a parsed template at one match: group 0 is the matched text. -/
def expand_template (matched : List Char) : List TmplItem → List Char
  | [] => []
  | .ch c :: t => c :: expand_template matched t
  | .group0 :: t => matched ++ expand_template matched t

/-- Fuel-indexed scan of `re.sub` (structural recursion, so that the
function evaluates inside the kernel); the fuel, initialized to the
input length, strictly exceeds the remaining input at every call.  Each
match is replaced by the template expanded at the matched text. -/
def pySubAux (lit : List Char) (tpl : List TmplItem) : Nat → List Char → List Char
  | _, [] => []
  | 0, s => s
  | fuel + 1, c :: t =>
    match tryMatch lit (c :: t) with
    | some rest =>
      expand_template ((c :: t).take ((c :: t).length - rest.length)) tpl ++
        pySubAux lit tpl fuel rest
    | none => c :: pySubAux lit tpl fuel t

/-- The scan-and-replace phase of `re.sub`, template already parsed:
replace every non-overlapping occurrence, scanning left to right and
resuming after each replacement. -/
def pySubRun (lit : List Char) (tpl : List TmplItem) (s : List Char) : List Char :=
  pySubAux lit tpl s.length s

/-- `re.sub(LIT + r'\s*".*?"', repl, s)` with a string replacement: the
replacement template is processed first — eagerly, so a bad template
raises even when the input has no match — then the scan replaces each
occurrence by the expanded template. -/
def pySub (lit repl s : List Char) : Except PyErr (List Char) :=
  match parse_template repl with
  | .error e => .error e
  | .ok tpl => .ok (pySubRun lit tpl s)

/-- String-level `re.sub` wrapper. -/
def pySubStr (lit repl s : String) : Except PyErr String :=
  match pySub lit.data repl.data s.data with
  | .error e => .error e
  | .ok l => .ok ⟨l⟩

/-- The string has no backslash (a replacement value without backslashes
is spliced verbatim by `re.sub`'s template processing). -/
def noBS (s : String) : Bool := s.data.all fun c => !(c = '\\')

/-- No double quote anywhere in the string. -/
def noQuote (s : String) : Bool := s.data.all fun c => !(c = '\x22')

/-! ### Scanning lemmas for `pySub`

A position that *definitely fails* (fails with the input it can see, as
opposed to running out of input) still fails in any extension of the
input; this lets concrete template chunks be certified by evaluation and
interpolated chunks by a character-level condition. -/

/-- The pattern fails at this position using only the visible input. -/
def definitelyFails (lit s : List Char) : Bool :=
  match tryMatchCore lit s with
  | .failed => true
  | _ => false

/-- Every nonempty suffix of `s` definitely fails. -/
def allSuffixesFail (lit : List Char) : List Char → Bool
  | [] => true
  | c :: t => definitelyFails lit (c :: t) && allSuffixesFail lit t

/-- A character allowed inside a substituted field value: anything except
a double quote or a newline. -/
def goodChar (c : Char) : Bool := !(c = '\x22' || c = '\n')

/-- All characters of the string are `goodChar`. -/
def goodStr (s : String) : Bool := s.data.all goodChar

/-! ## Generated file templates

Faithful transcriptions of the f-string templates of
`cpp_proj_manager.py` (the interactive scaffolder).  Interpolation points
are arguments; `\x7b`/`\x7d` denote literal braces.  The templates that
contain a substitutable tool-path field are split around that field so the
`re.sub` lemmas can name the pieces; concatenating the pieces in order
reproduces the Python template text exactly. -/

/-- `main.cpp` stub (lines 112-119). -/
def main_cpp_content : String :=
  "\n#include <iostream>\n\nint main() \x7b\n    std::cout << \"Hello, World!\" << std::endl;\n    return 0;\n\x7d\n"

/-- `CMakeLists.txt` (lines 125-135). -/
def cmake_content (project_name : String) : String :=
  "\ncmake_minimum_required(VERSION 3.10)\nproject(" ++ project_name ++
  ")\n\nset(CMAKE_CXX_STANDARD 17)\n\n# Add source files\nfile(GLOB_RECURSE SOURCES \"src/*.cpp\")\n\nadd_executable(" ++
  project_name ++ " $\x7bSOURCES\x7d)\n"

/-- `tasks.json` (lines 186-203); no interpolation points. -/
def tasks_content : String :=
  "\n\x7b\n    \"version\": \"2.0.0\",\n    \"tasks\": [\n        \x7b\n            \"label\": \"build\",\n            \"type\": \"shell\",\n            \"command\": \"cmake --build build\",\n            \"group\": \x7b\n                \"kind\": \"build\",\n                \"isDefault\": true\n            \x7d,\n            \"problemMatcher\": [\"$gcc\"],\n            \"detail\": \"Generated task for building the project.\"\n        \x7d\n    ]\n\x7d\n"

/-- `settings.json` (lines 208-214); no interpolation points. -/
def settings_content : String :=
  "\n\x7b\n    \"cmake.sourceDirectory\": \"$\x7bworkspaceFolder\x7d\",\n    \"C_Cpp.intelliSenseEngine\": \"Default\",\n    \"C_Cpp.default.configurationProvider\": \"ms-vscode.cmake-tools\"\n\x7d\n"

/-- `launch.json` (lines 153-180), up to the interpolated project name. -/
def launchPre : String :=
  "\n\x7b\n    \"version\": \"0.2.0\",\n    \"configurations\": [\n        \x7b\n            \"name\": \"(gdb) Launch\",\n            \"type\": \"cppdbg\",\n            \"request\": \"launch\",\n            \"program\": \"$\x7bworkspaceFolder\x7d/build/"

/-- `launch.json`: between the project name and the `miDebuggerPath` key. -/
def launchMidA : String :=
  "\",\n            \"args\": [],\n            \"stopAtEntry\": false,\n            \"cwd\": \"$\x7bworkspaceFolder\x7d\",\n            \"environment\": [],\n            \"externalConsole\": false,\n            \"MIMode\": \"gdb\",\n            \"setupCommands\": [\n                \x7b\n                    \"description\": \"Enable pretty-printing for gdb\",\n                    \"text\": \"-enable-pretty-printing\",\n                    \"ignoreFailures\": true\n                \x7d\n            ],\n            \"preLaunchTask\": \"build\",\n            "

/-- `launch.json`: after the debugger path's closing quote. -/
def launchR : String := "\n        \x7d\n    ]\n\x7d\n"

/-- The `launch.json` document emitted with a given project name and
interpolated debugger path. -/
def launch_content (project_name debugger_path : String) : String :=
  launchPre ++ project_name ++ launchMidA ++ "\"miDebuggerPath\": \"" ++
  debugger_path ++ "\"" ++ launchR

/-- `c_cpp_properties.json` (lines 221-239), up to the interpolated
platform name. -/
def ccppPre : String :=
  "\n\x7b\n    \"configurations\": [\n        \x7b\n            \"name\": \""

/-- `c_cpp_properties.json`: between the platform name and the
`compilerPath` key. -/
def ccppMidA : String :=
  "\",\n            \"includePath\": [\n                \"$\x7bworkspaceFolder\x7d/include\",\n                \"$\x7bworkspaceFolder\x7d/src\"\n            ],\n            \"defines\": [],\n            "

/-- `c_cpp_properties.json`: from after the compiler path's closing quote
to the interpolated `os_type.lower()`.  (The Python conditional expression
on the `intelliSenseMode` line sits *inside* the f-string literal, so it
is emitted verbatim; only `{os_type.lower()}` is interpolated.) -/
def ccppMidB : String :=
  ",\n            \"cStandard\": \"c17\",\n            \"cppStandard\": \"c++17\",\n            \"intelliSenseMode\": \""

/-- `c_cpp_properties.json`: the verbatim tail after `os_type.lower()`. -/
def ccppPost : String :=
  "-gcc-x64\" if os_type in [\"Linux\", \"macOS\"] else \"windows-msvc-x64\"\n        \x7d\n    ],\n    \"version\": 4\n\x7d\n"

/-- The `c_cpp_properties.json` document emitted with a given platform
name and interpolated compiler path. -/
def ccpp_content (os_type compiler_path : String) : String :=
  ccppPre ++ os_type ++ ccppMidA ++ "\"compilerPath\": \"" ++ compiler_path ++
  "\"" ++ ccppMidB ++ pyLower os_type ++ ccppPost

/-! ## Filesystem and the scaffolder / reconciler -/

/-- The filesystem: a map from path segments (as joined by
`os.path.join`) to file contents. -/
def Fs : Type := List String → Option String

/-- `open(path, "w")` followed by a full write (also the effect of
`seek(0); write; truncate()`). -/
def Fs.write (fs : Fs) (p : List String) (v : String) : Fs :=
  fun q => if q = p then some v else fs q

def mainCppPath (n : String) : List String := [n, "src", "main.cpp"]

def cmakeListsPath (n : String) : List String := [n, "CMakeLists.txt"]

def launchJsonPath (n : String) : List String := [n, ".vscode", "launch.json"]

def tasksJsonPath (n : String) : List String := [n, ".vscode", "tasks.json"]

def settingsJsonPath (n : String) : List String := [n, ".vscode", "settings.json"]

def ccppJsonPath (n : String) : List String := [n, ".vscode", "c_cpp_properties.json"]

/-- `create_vscode_config_files` (cpp_proj_manager.py lines 144-239).
Returns the filesystem after the writes that happened, plus the
exception, if any, that escaped (writes before the raise persist). -/
def create_vscode_config_files (env : Env) (project_name os_type : String)
    (compilers_found debuggers_found _cmake_found : Bool) (fs : Fs) :
    Fs × Option PyErr :=
  -- launch.json for debugging if debugger is found (149-180)
  let step1 : Fs × Option PyErr :=
    if debuggers_found then
      match (if os_type = "Linux" ∨ os_type = "macOS"
             then (find_tool_path env "gdb").map pyFStr
             else .ok "") with
      | .error e => (fs, some e)
      | .ok dp =>
        (fs.write (launchJsonPath project_name) (launch_content project_name dp),
         none)
    else (fs, none)
  match step1 with
  | (fs1, some e) => (fs1, some e)
  | (fs1, none) =>
    -- tasks.json for building if CMake is found (183-203)
    let fs2 := if compilers_found ∧ _cmake_found
               then fs1.write (tasksJsonPath project_name) tasks_content
               else fs1
    -- settings.json, unconditionally (206-214)
    let fs3 := fs2.write (settingsJsonPath project_name) settings_content
    -- c_cpp_properties.json if compiler is found (217-239)
    if compilers_found then
      match (if os_type = "Linux" ∨ os_type = "macOS"
             then find_tool_path env "g++"
             else find_tool_path env "cl") with
      | .error e => (fs3, some e)
      | .ok cp =>
        (fs3.write (ccppJsonPath project_name)
           (ccpp_content os_type (pyFStr cp)), none)
    else (fs3, none)

/-- `create_project_structure` (cpp_proj_manager.py lines 100-142).
Directory creation is idempotent and invisible to the file map; the
surrounding `try/except Exception` prints and swallows any exception, so
the function always returns, keeping partial writes. -/
def create_project_structure (env : Env) (project_name os_type : String)
    (compilers_found debuggers_found cmake_found : Bool) (fs : Fs) : Fs :=
  let fs1 := fs.write (mainCppPath project_name) main_cpp_content
  let fs2 := if cmake_found
             then fs1.write (cmakeListsPath project_name) (cmake_content project_name)
             else fs1
  (create_vscode_config_files env project_name os_type
    compilers_found debuggers_found cmake_found fs2).1

/-- Pattern and replacement of the `re.sub` on line 251. -/
def litCompiler : String := "\"compilerPath\":"

def replCompiler (v : String) : String := "\"compilerPath\": \"" ++ v ++ "\""

/-- Pattern and replacement of the `re.sub` on line 262. -/
def litMiDebugger : String := "\"miDebuggerPath\":"

def replMiDebugger (v : String) : String := "\"miDebuggerPath\": \"" ++ v ++ "\""

/-- `edit_project_configurations` (cpp_proj_manager.py lines 241-265):
the reconciler.  Each document present is read, the tool-path field is
substituted, and the file is rewritten; a missing document is skipped; an
exception from `find_tool_path` propagates (the file being edited is left
unwritten). -/
def edit_project_configurations (env : Env) (project_path : String) (fs : Fs) :
    Fs × Option PyErr :=
  -- c_cpp_properties.json (246-254)
  let stage1 : Fs × Option PyErr :=
    match fs (ccppJsonPath project_path) with
    | none => (fs, none)
    | some config =>
      match (if detect_os env = "Linux" ∨ detect_os env = "macOS"
             then find_tool_path env "g++"
             else find_tool_path env "cl") with
      | .error e => (fs, some e)
      | .ok cp =>
        match pySubStr litCompiler (replCompiler (pyFStr cp)) config with
        | .error e => (fs, some e)
        | .ok newConfig =>
          (fs.write (ccppJsonPath project_path) newConfig, none)
  match stage1 with
  | (fs1, some e) => (fs1, some e)
  | (fs1, none) =>
    -- launch.json (257-265)
    match fs1 (launchJsonPath project_path) with
    | none => (fs1, none)
    | some config =>
      match (if detect_os env = "Linux" ∨ detect_os env = "macOS"
             then (find_tool_path env "gdb").map pyFStr
             else .ok "") with
      | .error e => (fs1, some e)
      | .ok dp =>
        match pySubStr litMiDebugger (replMiDebugger dp) config with
        | .error e => (fs1, some e)
        | .ok newConfig =>
          (fs1.write (launchJsonPath project_path) newConfig, none)

/-! ## C1: version extraction -/

/-- Scan for the first position where one given alternative (with both
word boundaries) matches. -/
def searchOne (m : List Char → Option (List Char)) :
    Option Char → List Char → Option (List Char)
  | _, [] => none
  | prev, c :: t =>
    match (if boundaryBefore prev then m (c :: t) else none) with
    | some tok => some tok
    | none => searchOne m (some c) t

/-- The version extractor as the spec claim reads: the first occurrence
of a three-part token anywhere in the string, else the first two-part
token, else the first bare integer, else none.  (Spec-side definition,
for comparison with `extract_version`, which embeds the code.) -/
def claimExtractVersion (s : String) : Option String :=
  match searchOne matchThree none s.data with
  | some t => some ⟨t⟩
  | none =>
    match searchOne matchTwo none s.data with
    | some t => some ⟨t⟩
    | none => (searchOne matchOne none s.data).map fun l => ⟨l⟩

/-- First hit of an option-valued function along a list. -/
def listFirstSome {α β : Type} (f : α → Option β) : List α → Option β
  | [] => none
  | a :: l =>
    match f a with
    | some b => some b
    | none => listFirstSome f l

/-- The whole alternation pattern applied at position `i` of `s` (the
predecessor character supplies the opening word boundary). -/
def tokenAtIdx (s : List Char) (i : Nat) : Option (List Char) :=
  tokenAt (if i = 0 then none else s[i - 1]?) (s.drop i)

/-! ## C7: probe failure handling -/

/-- A machine on which every process spawn raises `PermissionError`
(executable present but not startable). -/
def envPermDenied : Env := ⟨"posix", "Linux", fun _ => .permissionDenied⟩

/-- A machine lacking only gdb. -/
def envNoGdb : Env :=
  ⟨"posix", "Linux",
   fun c => if c = ["gdb", "--version"] then .fileNotFound
            else .ok "tool version 1.2.3" ""⟩

/-- A machine whose `os.name` is neither `nt` nor `posix` (e.g. `java`). -/
def envUnknownOs : Env := ⟨"java", "Java", fun _ => .ok "" ""⟩

/-! ## C6: locating executables -/

/-- Split a character list at newlines. -/
def splitLines : List Char → List (List Char)
  | [] => [[]]
  | c :: t =>
    if c = '\n' then [] :: splitLines t
    else
      match splitLines t with
      | [] => [[c]]
      | l :: ls => (c :: l) :: ls

/-- The matches reported by the which/where facility, one per line of its
standard output (spec-side definition: the claim's "first match" is the
head of this list). -/
def reportedMatches (out : String) : List String :=
  ((splitLines out.data).filter fun l => !l.isEmpty).map fun l => (⟨l⟩ : String)

/-- A Windows machine where `where gdb` reports two matches. -/
def envWhereMulti : Env :=
  ⟨"nt", "Windows",
   fun c => if c = ["where", "gdb"] then
              .ok "C:\\tools\\gdb.exe\nC:\\other\\gdb.exe\n" ""
            else .ok "" ""⟩

/-- A Linux machine where `which g++` prints `/usr/bin/g++`. -/
def envWhichSingle : Env :=
  ⟨"posix", "Linux",
   fun c => if c = ["which", "g++"] then .ok "/usr/bin/g++\n" ""
            else .ok "" ""⟩

/-! ## C2: emitted documents and resolved tool paths -/

/-- The empty project target. -/
def emptyFs : Fs := fun _ => none

/-- A Windows machine where the prober resolves both gdb and cl. -/
def envWinGdb : Env :=
  ⟨"nt", "Windows",
   fun c => if c = ["where", "gdb"] then .ok "C:\\mingw\\bin\\gdb.exe\n" ""
            else if c = ["where", "cl"] then .ok "C:\\msvc\\cl.exe\n" ""
            else .ok "" ""⟩

/-- A Linux machine resolving gdb and g++. -/
def envLinuxFull : Env :=
  ⟨"posix", "Linux",
   fun c => if c = ["which", "gdb"] then .ok "/usr/bin/gdb\n" ""
            else if c = ["which", "g++"] then .ok "/usr/bin/g++\n" ""
            else .ok "tool 1.0" ""⟩

/-- A machine on which no tool resolves. -/
def envProbeless : Env := ⟨"posix", "Linux", fun _ => .fileNotFound⟩

/-- A Linux machine whose resolved g++ path contains a double quote
(legal in POSIX paths, and passed through verbatim by `which`). -/
def envQuotePath : Env :=
  ⟨"posix", "Linux",
   fun c => if c = ["which", "g++"] then .ok "/usr/b\"in/g++\n" ""
            else .ok "" ""⟩

/-- A Linux machine whose resolved g++ path contains a backslash
followed by `g<0>`: `re.sub` reads `\g<0>` in the replacement as a
reference to the whole match. -/
def envG0 : Env :=
  ⟨"posix", "Linux",
   fun c => if c = ["which", "g++"] then .ok "/weird/\\g<0>/g++\n" ""
            else .ok "" ""⟩

/-- A project holding a generated IntelliSense document. -/
def fsQuoteDemo : Fs :=
  emptyFs.write (ccppJsonPath "demo") (ccpp_content "Linux" "/usr/bin/g++")

/-- A project holding both generated documents (values from an older
machine). -/
def fsDemoGen : Fs :=
  (emptyFs.write (ccppJsonPath "demo") (ccpp_content "Linux" "/old/g++")).write
    (launchJsonPath "demo") (launch_content "demo" "/old/gdb")

/-! ## C5: reconcile alters only the tool-path field -/

/-- A project whose generated launch document was scaffolded from a
project name containing quotes (the name is free-text user input). -/
def fsBadName : Fs :=
  emptyFs.write (launchJsonPath "p")
    (launch_content "demo\", \"miDebuggerPath\": \"x" "/usr/bin/gdb")

/-- A Linux machine resolving gdb to a new path. -/
def envGdbNew : Env :=
  ⟨"posix", "Linux",
   fun c => if c = ["which", "gdb"] then .ok "/new/gdb\n" "" else .ok "" ""⟩

/-- A Linux machine where `which g++` prints nothing (not found). -/
def envNoGpp : Env :=
  ⟨"posix", "Linux",
   fun c => if c = ["which", "g++"] then .ok "" "" else .ok "" ""⟩

example : extract_version "cmake version 3.27.4" = some "3.27.4" := by decide

example : extract_version "g++ (GCC) 11" = some "11" := by decide

example : extract_version "no digits here" = none := by decide

example : extract_version "1.2 and 3.4.5" = some "1.2" := by decide

example : extract_version "a1.2" = some "2" := by decide

example : extract_version "1.2.3a and 7" = some "1.2" := by decide

theorem matchLit_matched_length {p s r : List Char}
    (h : matchLit p s = .matched r) : r.length ≤ s.length := by
  induction p generalizing s with
  | nil => simp [matchLit] at h; simp [h]
  | cons a p ih =>
    cases s with
    | nil => simp [matchLit] at h
    | cons c cs =>
      by_cases hc : c = a
      · simp [matchLit, hc] at h
        exact le_trans (ih h) (Nat.le_succ _)
      · simp [matchLit, hc] at h

theorem matchWsQuote_matched_length {s r : List Char}
    (h : matchWsQuote s = .matched r) : r.length < s.length := by
  induction s with
  | nil => simp [matchWsQuote] at h
  | cons c cs ih =>
    by_cases hq : c = '\x22'
    · simp [matchWsQuote, hq] at h
      simp [h]
    · by_cases hw : pyWs c
      · simp [matchWsQuote, hq, hw] at h
        exact lt_trans (ih h) (Nat.lt_succ_self _)
      · simp [matchWsQuote, hq, hw] at h

theorem matchValue_matched_length {s r : List Char}
    (h : matchValue s = .matched r) : r.length < s.length := by
  induction s with
  | nil => simp [matchValue] at h
  | cons c cs ih =>
    by_cases hq : c = '\x22'
    · simp [matchValue, hq] at h
      simp [h]
    · by_cases hn : c = '\n'
      · simp [matchValue, hq, hn] at h
      · simp [matchValue, hq, hn] at h
        exact lt_trans (ih h) (Nat.lt_succ_self _)

theorem tryMatch_some_length {lit s r : List Char}
    (h : tryMatch lit s = some r) : r.length < s.length := by
  unfold tryMatch at h
  cases hcore : tryMatchCore lit s with
  | matched r' =>
    rw [hcore] at h
    cases h
    unfold tryMatchCore at hcore
    cases hl : matchLit lit s with
    | matched r1 =>
      rw [hl] at hcore
      simp [MatchRes.andThen] at hcore
      cases hw : matchWsQuote r1 with
      | matched r2 =>
        rw [hw] at hcore
        simp [MatchRes.andThen] at hcore
        calc r.length < r2.length := matchValue_matched_length hcore
          _ < r1.length := matchWsQuote_matched_length hw
          _ ≤ s.length := matchLit_matched_length hl
      | failed => rw [hw] at hcore; simp [MatchRes.andThen] at hcore
      | ranOut => rw [hw] at hcore; simp [MatchRes.andThen] at hcore
    | failed => rw [hl] at hcore; simp [MatchRes.andThen] at hcore
    | ranOut => rw [hl] at hcore; simp [MatchRes.andThen] at hcore
  | failed => rw [hcore] at h; cases h
  | ranOut => rw [hcore] at h; cases h

theorem pySubAux_fuel (lit : List Char) (tpl : List TmplItem) :
    ∀ (f1 : Nat) (s : List Char), s.length ≤ f1 → ∀ (f2 : Nat), s.length ≤ f2 →
      pySubAux lit tpl f1 s = pySubAux lit tpl f2 s := by
  intro f1
  induction f1 with
  | zero =>
    intro s hs f2 _
    cases s with
    | nil => cases f2 <;> rfl
    | cons c t => simp at hs
  | succ g1 ih =>
    intro s hs f2 h2
    cases s with
    | nil => cases f2 <;> rfl
    | cons c t =>
      cases f2 with
      | zero => simp at h2
      | succ g2 =>
        simp only [pySubAux]
        have hlen : (c :: t).length = t.length + 1 := rfl
        cases htm : tryMatch lit (c :: t) with
        | some rest =>
          have hlt := tryMatch_some_length htm
          rw [hlen] at hlt
          rw [List.length_cons] at hs h2
          show expand_template ((c :: t).take ((c :: t).length - rest.length)) tpl ++
              pySubAux lit tpl g1 rest =
            expand_template ((c :: t).take ((c :: t).length - rest.length)) tpl ++
              pySubAux lit tpl g2 rest
          congr 1
          exact ih rest (by omega) g2 (by omega)
        | none =>
          rw [List.length_cons] at hs h2
          show c :: pySubAux lit tpl g1 t = c :: pySubAux lit tpl g2 t
          congr 1
          exact ih t (by omega) g2 (by omega)

theorem matchLit_failed_append {p s : List Char} (B : List Char)
    (h : matchLit p s = .failed) : matchLit p (s ++ B) = .failed := by
  induction p generalizing s with
  | nil => simp [matchLit] at h
  | cons a ps ih =>
    cases s with
    | nil => simp [matchLit] at h
    | cons c cs =>
      by_cases hc : c = a
      · simp [matchLit, hc] at h ⊢
        exact ih h
      · simp [matchLit, hc]

theorem matchLit_matched_append {p s r : List Char} (B : List Char)
    (h : matchLit p s = .matched r) : matchLit p (s ++ B) = .matched (r ++ B) := by
  induction p generalizing s with
  | nil =>
    simp [matchLit] at h
    simp [matchLit, h]
  | cons a ps ih =>
    cases s with
    | nil => simp [matchLit] at h
    | cons c cs =>
      by_cases hc : c = a
      · simp [matchLit, hc] at h ⊢
        exact ih h
      · simp [matchLit, hc] at h

theorem matchWsQuote_failed_append {s : List Char} (B : List Char)
    (h : matchWsQuote s = .failed) : matchWsQuote (s ++ B) = .failed := by
  induction s with
  | nil => simp [matchWsQuote] at h
  | cons c cs ih =>
    by_cases hq : c = '\x22'
    · simp [matchWsQuote, hq] at h
    · by_cases hw : pyWs c
      · simp [matchWsQuote, hq, hw] at h ⊢
        exact ih h
      · simp [matchWsQuote, hq, hw]

theorem matchWsQuote_matched_append {s r : List Char} (B : List Char)
    (h : matchWsQuote s = .matched r) : matchWsQuote (s ++ B) = .matched (r ++ B) := by
  induction s with
  | nil => simp [matchWsQuote] at h
  | cons c cs ih =>
    by_cases hq : c = '\x22'
    · simp [matchWsQuote, hq] at h ⊢
      simp [h]
    · by_cases hw : pyWs c
      · simp [matchWsQuote, hq, hw] at h ⊢
        exact ih h
      · simp [matchWsQuote, hq, hw] at h

theorem matchValue_failed_append {s : List Char} (B : List Char)
    (h : matchValue s = .failed) : matchValue (s ++ B) = .failed := by
  induction s with
  | nil => simp [matchValue] at h
  | cons c cs ih =>
    by_cases hq : c = '\x22'
    · simp [matchValue, hq] at h
    · by_cases hn : c = '\n'
      · simp [matchValue, hq, hn]
      · simp [matchValue, hq, hn] at h ⊢
        exact ih h

theorem tryMatchCore_failed_append {lit s : List Char} (B : List Char)
    (h : tryMatchCore lit s = .failed) : tryMatchCore lit (s ++ B) = .failed := by
  unfold tryMatchCore at h ⊢
  cases hl : matchLit lit s with
  | matched r1 =>
    rw [hl] at h
    rw [matchLit_matched_append B hl]
    simp [MatchRes.andThen] at h ⊢
    cases hw : matchWsQuote r1 with
    | matched r2 =>
      rw [hw] at h
      rw [matchWsQuote_matched_append B hw]
      simp [MatchRes.andThen] at h ⊢
      exact matchValue_failed_append B h
    | failed =>
      rw [matchWsQuote_failed_append B hw]
    | ranOut => rw [hw] at h; simp [MatchRes.andThen] at h
  | failed =>
    rw [matchLit_failed_append B hl]
    simp [MatchRes.andThen]
  | ranOut => rw [hl] at h; simp [MatchRes.andThen] at h

theorem tryMatch_append_none {lit s : List Char} (B : List Char)
    (h : definitelyFails lit s = true) : tryMatch lit (s ++ B) = none := by
  unfold definitelyFails at h
  unfold tryMatch
  cases hcore : tryMatchCore lit s with
  | matched r => rw [hcore] at h; simp at h
  | failed => rw [tryMatchCore_failed_append B hcore]
  | ranOut => rw [hcore] at h; simp at h

theorem pySub_nil (lit : List Char) (tpl : List TmplItem) :
    pySubRun lit tpl [] = [] := rfl

theorem pySub_cons_none {lit : List Char} {tpl : List TmplItem} {c : Char}
    {t : List Char} (h : tryMatch lit (c :: t) = none) :
    pySubRun lit tpl (c :: t) = c :: pySubRun lit tpl t := by
  show pySubAux lit tpl (t.length + 1) (c :: t) = c :: pySubRun lit tpl t
  simp only [pySubAux, h]
  rfl

theorem pySub_cons_some {lit : List Char} {tpl : List TmplItem} {c : Char}
    {t rest : List Char} (h : tryMatch lit (c :: t) = some rest) :
    pySubRun lit tpl (c :: t) =
      expand_template ((c :: t).take ((c :: t).length - rest.length)) tpl ++
        pySubRun lit tpl rest := by
  show pySubAux lit tpl (t.length + 1) (c :: t) =
    expand_template ((c :: t).take ((c :: t).length - rest.length)) tpl ++
      pySubRun lit tpl rest
  simp only [pySubAux, h]
  congr 1
  have hlt := tryMatch_some_length h
  rw [show (c :: t).length = t.length + 1 from rfl] at hlt
  exact pySubAux_fuel lit tpl t.length rest (by omega) rest.length le_rfl

theorem pySub_skip (lit : List Char) (tpl : List TmplItem) :
    ∀ A B, allSuffixesFail lit A = true →
      pySubRun lit tpl (A ++ B) = A ++ pySubRun lit tpl B := by
  intro A
  induction A with
  | nil => intro B _; rfl
  | cons c t ih =>
    intro B hA
    simp only [allSuffixesFail, Bool.and_eq_true] at hA
    have hnone : tryMatch lit (c :: (t ++ B)) = none := by
      have := @tryMatch_append_none lit (c :: t) B hA.1
      simpa using this
    rw [List.cons_append, pySub_cons_none hnone, ih B hA.2]
    simp

theorem pySub_eq_self {lit A : List Char} {tpl : List TmplItem}
    (hA : allSuffixesFail lit A = true) : pySubRun lit tpl A = A := by
  have := pySub_skip lit tpl A [] hA
  simpa [pySub_nil] using this

theorem tryMatch_quote_head {ps : List Char} {c : Char} {t : List Char}
    (hc : ¬c = '\x22') : tryMatch ('\x22' :: ps) (c :: t) = none := by
  unfold tryMatch tryMatchCore matchLit
  simp [hc, MatchRes.andThen]

theorem pySub_skip_safe (ps : List Char) (tpl : List TmplItem) :
    ∀ N B, (∀ c ∈ N, goodChar c = true) →
      pySubRun ('\x22' :: ps) tpl (N ++ B) =
        N ++ pySubRun ('\x22' :: ps) tpl B := by
  intro N
  induction N with
  | nil => intro B _; rfl
  | cons c t ih =>
    intro B hN
    have hc : ¬c = '\x22' := by
      have := hN c (by simp)
      simp [goodChar] at this
      exact this.1
    rw [List.cons_append, pySub_cons_none (tryMatch_quote_head hc),
      ih B fun x hx => hN x (by simp [hx])]
    simp

theorem pySub_skip_noquote (ps : List Char) (tpl : List TmplItem) :
    ∀ N B, (∀ c ∈ N, ¬c = '\x22') →
      pySubRun ('\x22' :: ps) tpl (N ++ B) =
        N ++ pySubRun ('\x22' :: ps) tpl B := by
  intro N
  induction N with
  | nil => intro B _; rfl
  | cons c t ih =>
    intro B hN
    rw [List.cons_append, pySub_cons_none (tryMatch_quote_head (hN c (by simp))),
      ih B fun x hx => hN x (by simp [hx])]
    simp

theorem matchValue_newline :
    ∀ P R : List Char, (∀ c ∈ P, ¬c = '\x22') → '\n' ∈ P →
      matchValue (P ++ R) = .failed := by
  intro P
  induction P with
  | nil => intro R _ hn; simp at hn
  | cons c t ih =>
    intro R hq hn
    have hcq := hq c (by simp)
    by_cases hc : c = '\n'
    · subst hc
      rw [List.cons_append]
      simp [matchValue]
    · have hn' : '\n' ∈ t := by
        rcases List.mem_cons.mp hn with h | h
        · exact absurd h.symm hc
        · exact h
      rw [List.cons_append]
      simp only [matchValue, if_neg hcq, if_neg hc]
      exact ih R (fun x hx => hq x (by simp [hx])) hn'

theorem wsq_then_value (R : List Char) (hR : matchValue R = .failed) :
    ∀ P : List Char, (∀ c ∈ P, ¬c = '\x22') →
      (matchWsQuote (P ++ '\x22' :: R)).andThen matchValue = .failed := by
  intro P
  induction P with
  | nil =>
    intro _
    simp [matchWsQuote, MatchRes.andThen, hR]
  | cons c t ih =>
    intro hq
    have hcq := hq c (by simp)
    by_cases hw : pyWs c = true
    · rw [List.cons_append]
      simp only [matchWsQuote, if_neg hcq, if_pos hw]
      exact ih fun x hx => hq x (by simp [hx])
    · rw [List.cons_append]
      simp only [matchWsQuote, if_neg hcq, if_neg hw]
      rfl

theorem matchTail_newline :
    ∀ (L P R : List Char), '\n' ∉ L → (∀ c ∈ P, ¬c = '\x22') → '\n' ∈ P →
      matchValue R = .failed →
      (matchLit L (P ++ '\x22' :: R)).andThen
        (fun r => (matchWsQuote r).andThen matchValue) = .failed := by
  intro L
  induction L with
  | nil =>
    intro P R _ hq hn hR
    simp only [matchLit, MatchRes.andThen]
    exact wsq_then_value R hR P hq
  | cons a L ih =>
    intro P R hL hq hn hR
    cases P with
    | nil => simp at hn
    | cons c t =>
      by_cases hca : c = a
      · subst hca
        have ha' : ¬('\n' : Char) = c := by
          intro h
          exact hL (by rw [← h]; exact List.mem_cons_self _ _)
        have hn' : '\n' ∈ t := by
          rcases List.mem_cons.mp hn with h | h
          · exact absurd h ha'
          · exact h
        rw [List.cons_append]
        simp only [matchLit, if_pos rfl]
        exact ih t R (fun h => hL (by simp [h])) (fun x hx => hq x (by simp [hx]))
          hn' hR
      · rw [List.cons_append]
        simp only [matchLit, if_neg hca]
        rfl

theorem tryMatch_open_quote (L P R : List Char) (hL : '\n' ∉ L)
    (hP : ∀ c ∈ P, ¬c = '\x22') (hn : '\n' ∈ P)
    (hR : matchValue R = .failed) :
    tryMatch ('\x22' :: L) ('\x22' :: (P ++ '\x22' :: R)) = none := by
  unfold tryMatch tryMatchCore
  simp only [matchLit, if_true]
  rw [matchTail_newline L P R hL hP hn hR]

theorem matchLit_self (p r : List Char) : matchLit p (p ++ r) = .matched r := by
  induction p with
  | nil => rfl
  | cons a ps ih => simp [matchLit, ih]

theorem matchValue_good (V : List Char) :
    ∀ R, (∀ c ∈ V, goodChar c = true) →
      matchValue (V ++ '\x22' :: R) = .matched R := by
  induction V with
  | nil => intro R _; simp [matchValue]
  | cons c t ih =>
    intro R hV
    have hc := hV c (by simp)
    simp [goodChar] at hc
    simp [matchValue, hc.1, hc.2]
    exact ih R fun x hx => hV x (by simp [hx])

theorem tryMatch_field (lit V R : List Char) (hV : ∀ c ∈ V, goodChar c = true) :
    tryMatch lit (lit ++ (' ' :: '\x22' :: (V ++ '\x22' :: R))) = some R := by
  unfold tryMatch tryMatchCore
  rw [matchLit_self lit (' ' :: '\x22' :: (V ++ '\x22' :: R))]
  simp only [MatchRes.andThen]
  have hws : matchWsQuote (' ' :: '\x22' :: (V ++ '\x22' :: R)) =
      .matched (V ++ '\x22' :: R) := by
    simp [matchWsQuote, pyWs]
  rw [hws]
  simp only [MatchRes.andThen]
  rw [matchValue_good V R hV]

theorem expand_map_ch (m : List Char) :
    ∀ R0 : List Char, expand_template m (R0.map TmplItem.ch) = R0 := by
  intro R0
  induction R0 with
  | nil => rfl
  | cons c t ih => simp [expand_template, ih]

/-- The main splicing lemma: on input of the shape
`A ++ LIT ++ ␣" ++ V ++ " ++ R` where no match starts inside `A` or `R`
and the old value `V` contains no quote or newline, substitution with a
constant (group-reference-free) template `R0` replaces exactly the field
by `R0` and nothing else. -/
theorem pySub_spliced (lit R0 A V R : List Char)
    (hlit : lit ≠ [])
    (hA : allSuffixesFail lit A = true)
    (hV : ∀ c ∈ V, goodChar c = true)
    (hR : allSuffixesFail lit R = true) :
    pySubRun lit (R0.map TmplItem.ch)
      (A ++ (lit ++ (' ' :: '\x22' :: (V ++ '\x22' :: R)))) =
      A ++ R0 ++ R := by
  rw [pySub_skip lit (R0.map TmplItem.ch) A _ hA]
  obtain ⟨l0, lit', rfl⟩ : ∃ l0 lit', lit = l0 :: lit' := by
    cases lit with
    | nil => exact absurd rfl hlit
    | cons a b => exact ⟨a, b, rfl⟩
  have hmatch : tryMatch (l0 :: lit')
      (l0 :: (lit' ++ (' ' :: '\x22' :: (V ++ '\x22' :: R)))) = some R := by
    have := tryMatch_field (l0 :: lit') V R hV
    simpa using this
  rw [List.cons_append, pySub_cons_some hmatch, pySub_eq_self hR, expand_map_ch]
  simp [List.append_assoc]

/-- The no-match lemma: on input of the shape
`A ++ LIT ++ ␣" ++ P ++ " ++ R` where no match starts inside `A` or at
`" ++ R`, the literal's own tail cannot restart a match, the old value
`P` contains no quote but does contain a newline (so the lazy `.*?`,
which does not cross newlines, cannot close the field), and a match
entered from the field's opening quote dies in `R`, substitution leaves
the input unchanged. -/
theorem pySub_nomatch (L P A R : List Char) (tpl : List TmplItem)
    (hL : '\n' ∉ L)
    (hA : allSuffixesFail ('\x22' :: L) A = true)
    (htail : allSuffixesFail ('\x22' :: L) (L ++ [' ']) = true)
    (hP : ∀ c ∈ P, ¬c = '\x22') (hn : '\n' ∈ P)
    (hRv : matchValue R = .failed)
    (hRs : allSuffixesFail ('\x22' :: L) ('\x22' :: R) = true) :
    pySubRun ('\x22' :: L) tpl
      (A ++ (('\x22' :: L) ++ (' ' :: '\x22' :: (P ++ '\x22' :: R)))) =
      A ++ (('\x22' :: L) ++ (' ' :: '\x22' :: (P ++ '\x22' :: R))) := by
  rw [pySub_skip ('\x22' :: L) tpl A _ hA]
  have h2 : tryMatch ('\x22' :: L)
      (('\x22' :: L) ++ (' ' :: '\x22' :: (P ++ '\x22' :: R))) = none := by
    unfold tryMatch tryMatchCore
    rw [matchLit_self ('\x22' :: L) (' ' :: '\x22' :: (P ++ '\x22' :: R))]
    simp only [MatchRes.andThen]
    have hws : matchWsQuote (' ' :: '\x22' :: (P ++ '\x22' :: R)) =
        .matched (P ++ '\x22' :: R) := by
      simp [matchWsQuote, pyWs]
    rw [hws]
    simp only [MatchRes.andThen]
    rw [matchValue_newline P ('\x22' :: R) hP hn]
  rw [List.cons_append] at h2
  have hmain : pySubRun ('\x22' :: L) tpl
      ('\x22' :: (L ++ (' ' :: '\x22' :: (P ++ '\x22' :: R)))) =
      '\x22' :: (L ++ (' ' :: '\x22' :: (P ++ '\x22' :: R))) := by
    rw [pySub_cons_none h2]
    rw [show L ++ (' ' :: '\x22' :: (P ++ '\x22' :: R)) =
        (L ++ [' ']) ++ ('\x22' :: (P ++ '\x22' :: R)) from by simp]
    rw [pySub_skip ('\x22' :: L) tpl (L ++ [' ']) _ htail]
    rw [pySub_cons_none (tryMatch_open_quote L P R hL hP hn hRv)]
    rw [show P ++ '\x22' :: R = P ++ ('\x22' :: R) from rfl,
      pySub_skip_noquote L tpl P ('\x22' :: R) hP,
      pySub_eq_self hRs]
  rw [List.cons_append, hmain]

theorem listFirstSome_map {α β γ : Type} (f : β → Option γ) (g : α → β)
    (l : List α) :
    listFirstSome f (l.map g) = listFirstSome (fun a => f (g a)) l := by
  induction l with
  | nil => rfl
  | cons a l ih => simp [listFirstSome, List.map_cons]; rw [ih]

theorem listFirstSome_congr {α β : Type} {f g : α → Option β} :
    ∀ l : List α, (∀ a ∈ l, f a = g a) →
      listFirstSome f l = listFirstSome g l := by
  intro l
  induction l with
  | nil => intro _; rfl
  | cons a l ih =>
    intro h
    simp only [listFirstSome]
    rw [h a (by simp), ih fun x hx => h x (by simp [hx])]

theorem searchFrom_eq_listFirstSome :
    ∀ (l : List Char) (prev : Option Char),
      searchFrom prev l =
        listFirstSome
          (fun i => tokenAt (if i = 0 then prev else l[i - 1]?) (l.drop i))
          (List.range l.length) := by
  intro l
  induction l with
  | nil => intro prev; rfl
  | cons c t ih =>
    intro prev
    rw [List.length_cons, List.range_succ_eq_map]
    simp only [listFirstSome, listFirstSome_map, if_true, List.drop_zero]
    have hfun :
        listFirstSome
          (fun a => tokenAt
            (if Nat.succ a = 0 then prev else (c :: t)[Nat.succ a - 1]?)
            ((c :: t).drop (Nat.succ a)))
          (List.range t.length) =
        listFirstSome
          (fun i => tokenAt (if i = 0 then some c else t[i - 1]?) (t.drop i))
          (List.range t.length) := by
      apply listFirstSome_congr
      intro a _
      cases a with
      | zero => simp
      | succ b => simp
    rw [hfun, ← ih (some c)]
    cases htok : tokenAt prev (c :: t) <;> simp [searchFrom, htok]

/-- **C1, counterexample.**  The claim says the extractor returns the
first three-part token if one exists anywhere in the string.  On
`"1.2 and 3.4.5"` a three-part token (`3.4.5`) exists, and the claimed
reading returns it, but `extract_version` returns `"1.2"`: `re.search`
stops at the leftmost position where *any* alternative matches. -/
theorem extract_version_not_first_three_part :
    claimExtractVersion "1.2 and 3.4.5" = some "3.4.5" ∧
    extract_version "1.2 and 3.4.5" = some "1.2" ∧
    some "1.2" ≠ some "3.4.5" := by
  refine ⟨by decide, by decide, by decide⟩

/-- **C1 (amended).**  The extractor returns the match at the *leftmost*
position where any of the three alternatives (with word boundaries)
matches, preferring at that position the three-part form, then the
two-part form, then the bare integer (the alternation order of the
pattern); in particular it returns `"3.27.4"` for
`"cmake version 3.27.4"`, `"11"` for `"g++ (GCC) 11"`, and `none` for
`"no digits here"`. -/
theorem extract_version_leftmost :
    (∀ s : String, extract_version s =
      (listFirstSome (tokenAtIdx s.data) (List.range s.data.length)).map
        fun l => (⟨l⟩ : String)) ∧
    extract_version "cmake version 3.27.4" = some "3.27.4" ∧
    extract_version "g++ (GCC) 11" = some "11" ∧
    extract_version "no digits here" = none := by
  refine ⟨fun s => ?_, by decide, by decide, by decide⟩
  unfold extract_version tokenAtIdx
  rw [searchFrom_eq_listFirstSome]

/-- **C7, counterexample.**  The claim says a probe whose executable
cannot be located *or started* returns `found=false, version=none`
without raising.  `check_tool` catches only `FileNotFoundError`; a
startup failure such as `PermissionError` escapes as an exception instead
of being returned as data. -/
theorem check_tool_raises_on_permission_error :
    check_tool envPermDenied "MSVC" ["cl"] = .error .permissionDenied := by
  rfl

/-- **C7 (amended).**  For every probe whose executable cannot be
*located* (`subprocess.run` raises `FileNotFoundError`), `check_tool`
returns `found=false`, `version=none` — and the fixed not-installed
message — without raising; startup failures other than absence (such as
`PermissionError`) propagate to the caller as exceptions. -/
theorem check_tool_not_found_is_data (env : Env) (n : String) (cmd : List String)
    (h : env.run cmd = .fileNotFound) :
    check_tool env n cmd = .ok ⟨n, false, none, n ++ " is not installed."⟩ := by
  simp [check_tool, h]

theorem check_tool_not_found_is_data_witness :
    envNoGdb.run ["gdb", "--version"] = .fileNotFound ∧
    check_tool envNoGdb "GDB" ["gdb", "--version"] =
      .ok ⟨"GDB", false, none, "GDB is not installed."⟩ :=
  ⟨by decide, check_tool_not_found_is_data envNoGdb "GDB" ["gdb", "--version"] (by decide)⟩

/-! ## C8: inventory on a machine lacking the debugger -/

theorem foldTools_gdb_last (env : Env)
    (hgdb : env.run ["gdb", "--version"] = .fileNotFound) :
    ∀ (ts : List (String × List String)) (st : Bool × Bool × Bool × List String),
      (∀ p ∈ ts, p.1 ≠ "GDB" ∧ env.run p.2 ≠ .permissionDenied) →
      st.2.1 = false →
      ∃ c k m, foldTools env (ts ++ [("GDB", ["gdb", "--version"])]) st =
        .ok (c, false, k, m) ∧ "GDB" ∈ m := by
  intro ts
  induction ts with
  | nil =>
    intro st _ hd
    obtain ⟨c, d, k, m⟩ := st
    simp at hd
    subst hd
    refine ⟨c, k, m ++ ["GDB"], ?_, by simp⟩
    have hct : check_tool env "GDB" ["gdb", "--version"] =
        .ok ⟨"GDB", false, none, "GDB is not installed."⟩ := by
      simp [check_tool, hgdb]
    simp [foldTools, hct]
  | cons p ts ih =>
    intro st hts hd
    obtain ⟨c, d, k, m⟩ := st
    simp at hd
    subst hd
    obtain ⟨n, cmd⟩ := p
    have hp := hts (n, cmd) (by simp)
    simp at hp
    cases hr : env.run cmd with
    | permissionDenied => exact absurd hr hp.2
    | ok out err =>
      have hct : check_tool env n cmd =
          .ok ⟨n, true, some ((extract_version (pyOrStr out err)).getD "Unknown"),
               n ++ " is installed. Version: " ++
                 (extract_version (pyOrStr out err)).getD "Unknown"⟩ := by
        simp [check_tool, hr]
      rw [List.cons_append]
      rw [show foldTools env ((n, cmd) :: (ts ++ [("GDB", ["gdb", "--version"])]))
            (c, false, k, m) =
          foldTools env (ts ++ [("GDB", ["gdb", "--version"])])
            (if n ∈ ["GCC", "G++", "MSVC"] ∧ true then true else c,
             if n ∈ ["GDB"] ∧ true then true else false,
             if n = "CMake" ∧ true then true else k,
             if true then m else m ++ [n]) from by simp [foldTools, hct]]
      refine ih _ (fun q hq => hts q (by simp [hq])) ?_
      simp [hp.1]
    | fileNotFound =>
      have hct : check_tool env n cmd =
          .ok ⟨n, false, none, n ++ " is not installed."⟩ := by
        simp [check_tool, hr]
      rw [List.cons_append]
      rw [show foldTools env ((n, cmd) :: (ts ++ [("GDB", ["gdb", "--version"])]))
            (c, false, k, m) =
          foldTools env (ts ++ [("GDB", ["gdb", "--version"])])
            (if n ∈ ["GCC", "G++", "MSVC"] ∧ false then true else c,
             if n ∈ ["GDB"] ∧ false then true else false,
             if n = "CMake" ∧ false then true else k,
             if false then m else m ++ [n]) from by simp [foldTools, hct]]
      refine ih _ (fun q hq => hts q (by simp [hq])) ?_
      simp

/-- **C8.**  On every supported platform where the debugger probe does
not find gdb (and no probe raises a non-absence startup error, which
would escape `check_all_tools` altogether), the inventory has
`debuggers_found = false` and `"GDB"` is in the missing-tool list,
whatever the other probes returned. -/
theorem inventory_missing_debugger (env : Env)
    (hos : detect_os env = "Windows" ∨ detect_os env = "Linux" ∨
           detect_os env = "macOS")
    (hgdb : env.run ["gdb", "--version"] = .fileNotFound)
    (hnp : ∀ cmd, env.run cmd ≠ .permissionDenied) :
    ∃ c k m, check_all_tools env = .ok (some (c, false, k, m)) ∧ "GDB" ∈ m := by
  have key : ∀ pre : List (String × List String),
      (∀ p ∈ pre, p.1 ≠ "GDB") →
      toolsFor (detect_os env) = some (pre ++ [("GDB", ["gdb", "--version"])]) →
      ∃ c k m, check_all_tools env = .ok (some (c, false, k, m)) ∧ "GDB" ∈ m := by
    intro pre hpre htf
    obtain ⟨c, k, m, hfold, hmem⟩ :=
      foldTools_gdb_last env hgdb pre (false, false, false, [])
        (fun p hp => ⟨hpre p hp, hnp p.2⟩) rfl
    exact ⟨c, k, m, by simp [check_all_tools, htf, hfold, Except.map], hmem⟩
  rcases hos with h | h | h
  · exact key [("CMake", ["cmake", "--version"]), ("MSVC", ["cl"])]
      (by intro p hp; simp at hp; rcases hp with h1 | h1 <;> simp [h1])
      (by rw [h]; rfl)
  · exact key [("CMake", ["cmake", "--version"]), ("GCC", ["gcc", "--version"]),
               ("G++", ["g++", "--version"])]
      (by intro p hp; simp at hp; rcases hp with h1 | h1 | h1 <;> simp [h1])
      (by rw [h]; rfl)
  · exact key [("CMake", ["cmake", "--version"]), ("GCC", ["gcc", "--version"]),
               ("G++", ["g++", "--version"])]
      (by intro p hp; simp at hp; rcases hp with h1 | h1 | h1 <;> simp [h1])
      (by rw [h]; rfl)

theorem inventory_missing_debugger_witness :
    ∃ c k m, check_all_tools envNoGdb = .ok (some (c, false, k, m)) ∧
      "GDB" ∈ m :=
  inventory_missing_debugger envNoGdb
    (by right; left; decide)
    (by decide)
    (by intro cmd; simp [envNoGdb]; split <;> simp)

/-! ## C9: unknown platform -/

/-- **C9.**  When the detected platform is `Unknown`, `check_all_tools`
prints a diagnostic and returns Python `None` instead of the 4-tuple, so
the unconditional unpacking in `main` raises `TypeError`: the inventory
interface is total only over Windows/Linux/macOS. -/
theorem check_all_tools_unknown_platform (env : Env)
    (h : detect_os env = "Unknown") :
    check_all_tools env = .ok none ∧
    main_inventory env = .error .typeError := by
  have ht : toolsFor (detect_os env) = none := by
    rw [h]; rfl
  constructor
  · simp [check_all_tools, ht]
  · simp [main_inventory, check_all_tools, ht]

theorem check_all_tools_unknown_platform_witness :
    check_all_tools envUnknownOs = .ok none ∧
    main_inventory envUnknownOs = .error .typeError :=
  check_all_tools_unknown_platform envUnknownOs (by decide)

/-- **C6, counterexample.**  The claim says `find_tool_path` returns the
*first* match reported by the facility.  On Windows, `where` reports one
match per line and the code returns `result.stdout.strip()`, which keeps
*all* matches (newline-separated), not the first. -/
theorem find_tool_path_not_first_match :
    (reportedMatches "C:\\tools\\gdb.exe\nC:\\other\\gdb.exe\n").head? =
      some "C:\\tools\\gdb.exe" ∧
    find_tool_path envWhereMulti "gdb" =
      .ok (some "C:\\tools\\gdb.exe\nC:\\other\\gdb.exe") ∧
    ("C:\\tools\\gdb.exe\nC:\\other\\gdb.exe" : String) ≠ "C:\\tools\\gdb.exe" := by
  refine ⟨by decide, by rfl, by decide⟩

theorem dropWhile_pyWs_eq_self {l : List Char} (h : ∀ x ∈ l, pyWs x = false) :
    l.dropWhile pyWs = l := by
  cases l with
  | nil => rfl
  | cons a t => exact List.dropWhile_cons_of_neg (by simp [h a (by simp)])

theorem pyStrip_single_line (p : String) (hne : p ≠ "")
    (hws : ∀ c ∈ p.data, pyWs c = false) : pyStrip (p ++ "\n") = p := by
  obtain ⟨l⟩ := p
  cases l with
  | nil => exact absurd rfl hne
  | cons c t =>
    have hdata : (String.mk (c :: t) ++ "\n").data = (c :: t) ++ ['\n'] := by
      rw [String.data_append]
    unfold pyStrip
    rw [hdata]
    have h1 : ((c :: t) ++ ['\n']).dropWhile pyWs = (c :: t) ++ ['\n'] := by
      rw [List.cons_append]
      exact List.dropWhile_cons_of_neg (by simp [hws c (by simp)])
    rw [h1, List.reverse_append]
    have h2 : (['\n'].reverse ++ (c :: t).reverse).dropWhile pyWs =
        ((c :: t).reverse).dropWhile pyWs := by
      simp [List.dropWhile_cons_of_pos, pyWs]
    rw [h2, dropWhile_pyWs_eq_self fun x hx =>
        hws x (by rw [List.mem_reverse] at hx; exact hx),
      List.reverse_reverse]

/-- **C6 (amended).**  When the facility itself runs, `find_tool_path`
never raises: it returns the *entire stripped standard output* (on
Windows this may hold several matches, newline-separated), or `none` when
the output strips to empty — in particular it returns `none`, and does
not raise, for a tool with no match.  On Linux/macOS, where `which`
prints the single first match as one line, the result is exactly that
first match. -/
theorem find_tool_path_amended (env : Env) (t : String) :
    (detect_os env = "Windows" →
      ∀ out err, env.run ["where", t] = .ok out err →
        find_tool_path env t = .ok (stripToOption out)) ∧
    ((detect_os env = "Linux" ∨ detect_os env = "macOS") →
      ∀ out err, env.run ["which", t] = .ok out err →
        (find_tool_path env t = .ok (stripToOption out) ∧
         (pyStrip out = "" → find_tool_path env t = .ok none) ∧
         ∀ p : String, out = p ++ "\n" → p ≠ "" →
           (∀ c ∈ p.data, pyWs c = false) →
           find_tool_path env t = .ok (some p))) := by
  constructor
  · intro hw out err hrun
    simp [find_tool_path, hw, hrun]
  · intro hp out err hrun
    have hnw : detect_os env ≠ "Windows" := by
      rcases hp with h | h <;> simp [h]
    have hbase : find_tool_path env t = .ok (stripToOption out) := by
      rcases hp with h | h <;> simp [find_tool_path, h, hrun]
    refine ⟨hbase, ?_, ?_⟩
    · intro hempty
      rw [hbase]
      simp [stripToOption, hempty]
    · intro p hout hne hws
      rw [hbase, hout]
      have hstrip := pyStrip_single_line p hne hws
      simp [stripToOption, hstrip, hne]

theorem find_tool_path_amended_witness :
    find_tool_path envWhichSingle "g++" = .ok (some "/usr/bin/g++") :=
  ((find_tool_path_amended envWhichSingle "g++").2 (Or.inl (by decide))
    "/usr/bin/g++\n" "" (by decide)).2.2 "/usr/bin/g++" (by decide) (by decide)
    (by decide)

/-- **C2, counterexample.**  The claim says every emitted document embeds
the tool path currently resolved by the prober, on every supported
platform.  On Windows the scaffolder writes `miDebuggerPath` as the empty
string unconditionally (line 151's `else ""`), even though the prober
resolves a gdb path. -/
theorem scaffold_windows_debugger_path_not_prober :
    find_tool_path envWinGdb "gdb" = .ok (some "C:\\mingw\\bin\\gdb.exe") ∧
    create_project_structure envWinGdb "demo" "Windows" true true true emptyFs
        (launchJsonPath "demo") = some (launch_content "demo" "") ∧
    ("" : String) ≠ "C:\\mingw\\bin\\gdb.exe" := by
  refine ⟨by rfl, by rfl, by decide⟩

/-- **C2 (amended).**  On Linux/macOS, the emitted debugger-launch
document embeds exactly the prober's resolved gdb path and the emitted
IntelliSense document embeds exactly the prober's resolved g++ path
(interpolated via the f-string, so an unresolved path becomes the literal
`None`); on Windows the debugger path is hardcoded to the empty string
and the compiler path comes from `cl` (and the non-interactive
`create_project.py` scaffolder hardcodes `/usr/bin/gdb`). -/
theorem scaffold_embeds_prober_paths (env : Env) (name : String) (k : Bool)
    (fs₀ : Fs) (gdbp gppp : Option String)
    (hos : detect_os env = "Linux" ∨ detect_os env = "macOS")
    (hgdb : find_tool_path env "gdb" = .ok gdbp)
    (hgpp : find_tool_path env "g++" = .ok gppp) :
    create_project_structure env name (detect_os env) true true k fs₀
        (launchJsonPath name) = some (launch_content name (pyFStr gdbp)) ∧
    create_project_structure env name (detect_os env) true true k fs₀
        (ccppJsonPath name) = some (ccpp_content (detect_os env) (pyFStr gppp)) := by
  unfold create_project_structure create_vscode_config_files
  rw [if_pos hos, if_pos hos, hgdb, hgpp]
  cases k <;>
    simp [Fs.write, launchJsonPath, tasksJsonPath, settingsJsonPath,
      ccppJsonPath, cmakeListsPath, mainCppPath, Except.map]

theorem scaffold_embeds_prober_paths_witness :
    create_project_structure envLinuxFull "demo" (detect_os envLinuxFull)
        true true true emptyFs (launchJsonPath "demo") =
      some (launch_content "demo" (pyFStr (some "/usr/bin/gdb"))) ∧
    create_project_structure envLinuxFull "demo" (detect_os envLinuxFull)
        true true true emptyFs (ccppJsonPath "demo") =
      some (ccpp_content (detect_os envLinuxFull) (pyFStr (some "/usr/bin/g++"))) :=
  scaffold_embeds_prober_paths envLinuxFull "demo" true emptyFs
    (some "/usr/bin/gdb") (some "/usr/bin/g++")
    (Or.inl (by decide)) (by rfl) (by rfl)

/-! ## C3: conditional emission -/

/-- **C3.**  Starting from a target where none of the gated documents
exist, the scaffolder leaves the build manifest absent when the build
generator was not found, the debugger-launch document absent when no
debugger was found, the task-runner document absent unless both a
compiler and the build generator were found, and the IntelliSense
document absent when no compiler was found — whatever the platform and
whatever the probe and path-resolution outcomes. -/
theorem scaffold_conditional_emission (env : Env) (name os_type : String)
    (c d k : Bool) (fs₀ : Fs)
    (h1 : fs₀ (cmakeListsPath name) = none)
    (h2 : fs₀ (launchJsonPath name) = none)
    (h3 : fs₀ (tasksJsonPath name) = none)
    (h4 : fs₀ (ccppJsonPath name) = none) :
    (k = false →
      create_project_structure env name os_type c d k fs₀ (cmakeListsPath name) = none) ∧
    (d = false →
      create_project_structure env name os_type c d k fs₀ (launchJsonPath name) = none) ∧
    (¬(c = true ∧ k = true) →
      create_project_structure env name os_type c d k fs₀ (tasksJsonPath name) = none) ∧
    (c = false →
      create_project_structure env name os_type c d k fs₀ (ccppJsonPath name) = none) := by
  simp only [cmakeListsPath, launchJsonPath, tasksJsonPath, settingsJsonPath,
    ccppJsonPath, mainCppPath] at h1 h2 h3 h4 ⊢
  refine ⟨?_, ?_, ?_, ?_⟩
  · intro hk; subst hk
    cases hFd : (if os_type = "Linux" ∨ os_type = "macOS"
        then (find_tool_path env "gdb").map pyFStr else Except.ok "") <;>
    cases hFq : (if os_type = "Linux" ∨ os_type = "macOS"
        then find_tool_path env "g++" else find_tool_path env "cl") <;>
    cases c <;> cases d <;>
      simp [create_project_structure, create_vscode_config_files, hFd, hFq,
        Fs.write, launchJsonPath, tasksJsonPath, settingsJsonPath,
        ccppJsonPath, cmakeListsPath, mainCppPath, h1]
  · intro hd; subst hd
    cases hFd : (if os_type = "Linux" ∨ os_type = "macOS"
        then (find_tool_path env "gdb").map pyFStr else Except.ok "") <;>
    cases hFq : (if os_type = "Linux" ∨ os_type = "macOS"
        then find_tool_path env "g++" else find_tool_path env "cl") <;>
    cases c <;> cases k <;>
      simp [create_project_structure, create_vscode_config_files, hFd, hFq,
        Fs.write, launchJsonPath, tasksJsonPath, settingsJsonPath,
        ccppJsonPath, cmakeListsPath, mainCppPath, h2]
  · intro hck
    have hck2 : c = false ∨ k = false := by
      cases c <;> cases k <;> simp_all
    rcases hck2 with h | h
    · subst h
      cases hFd : (if os_type = "Linux" ∨ os_type = "macOS"
          then (find_tool_path env "gdb").map pyFStr else Except.ok "") <;>
      cases hFq : (if os_type = "Linux" ∨ os_type = "macOS"
          then find_tool_path env "g++" else find_tool_path env "cl") <;>
      cases d <;> cases k <;>
        simp [create_project_structure, create_vscode_config_files, hFd, hFq,
          Fs.write, launchJsonPath, tasksJsonPath, settingsJsonPath,
          ccppJsonPath, cmakeListsPath, mainCppPath, h3]
    · subst h
      cases hFd : (if os_type = "Linux" ∨ os_type = "macOS"
          then (find_tool_path env "gdb").map pyFStr else Except.ok "") <;>
      cases hFq : (if os_type = "Linux" ∨ os_type = "macOS"
          then find_tool_path env "g++" else find_tool_path env "cl") <;>
      cases d <;> cases c <;>
        simp [create_project_structure, create_vscode_config_files, hFd, hFq,
          Fs.write, launchJsonPath, tasksJsonPath, settingsJsonPath,
          ccppJsonPath, cmakeListsPath, mainCppPath, h3]
  · intro hc; subst hc
    cases hFd : (if os_type = "Linux" ∨ os_type = "macOS"
        then (find_tool_path env "gdb").map pyFStr else Except.ok "") <;>
    cases hFq : (if os_type = "Linux" ∨ os_type = "macOS"
        then find_tool_path env "g++" else find_tool_path env "cl") <;>
    cases d <;> cases k <;>
      simp [create_project_structure, create_vscode_config_files, hFd, hFq,
        Fs.write, launchJsonPath, tasksJsonPath, settingsJsonPath,
        ccppJsonPath, cmakeListsPath, mainCppPath, h4]

theorem scaffold_conditional_emission_witness :
    create_project_structure envProbeless "demo" "Linux" false false false
        emptyFs (cmakeListsPath "demo") = none ∧
    create_project_structure envProbeless "demo" "Linux" false false false
        emptyFs (launchJsonPath "demo") = none ∧
    create_project_structure envProbeless "demo" "Linux" false false false
        emptyFs (tasksJsonPath "demo") = none ∧
    create_project_structure envProbeless "demo" "Linux" false false false
        emptyFs (ccppJsonPath "demo") = none := by
  have T := scaffold_conditional_emission envProbeless "demo" "Linux"
    false false false emptyFs rfl rfl rfl rfl
  exact ⟨T.1 rfl, T.2.1 rfl, T.2.2.1 (by simp), T.2.2.2 rfl⟩

/-! ## Substitution on the generated templates -/

theorem goodStr_mem {V : String} (hV : goodStr V = true) :
    ∀ c ∈ V.data, goodChar c = true := by
  simpa [goodStr, List.all_eq_true] using hV

theorem compiler_field_data :
    ("\"compilerPath\": \"" : String).data = litCompiler.data ++ [' ', '\x22'] := by
  decide

theorem debugger_field_data :
    ("\"miDebuggerPath\": \"" : String).data =
      litMiDebugger.data ++ [' ', '\x22'] := by
  decide

theorem quote_data : ("\"" : String).data = ['\x22'] := by decide

theorem replCompiler_data (P : String) :
    (replCompiler P).data =
      litCompiler.data ++ (' ' :: '\x22' :: (P.data ++ ['\x22'])) := by
  simp [replCompiler, litCompiler, String.data_append, compiler_field_data,
    quote_data, List.append_assoc]

theorem replMiDebugger_data (P : String) :
    (replMiDebugger P).data =
      litMiDebugger.data ++ (' ' :: '\x22' :: (P.data ++ ['\x22'])) := by
  simp [replMiDebugger, litMiDebugger, String.data_append, debugger_field_data,
    quote_data, List.append_assoc]

theorem ccpp_content_data (osn q : String) :
    (ccpp_content osn q).data =
      (ccppPre.data ++ (osn.data ++ ccppMidA.data)) ++
      (litCompiler.data ++ (' ' :: '\x22' :: (q.data ++ '\x22' ::
        (ccppMidB.data ++ ((pyLower osn).data ++ ccppPost.data))))) := by
  simp [ccpp_content, litCompiler, String.data_append, compiler_field_data,
    quote_data, List.append_assoc]

theorem noBS_mem {s : String} (h : noBS s = true) : ∀ c ∈ s.data, ¬c = '\\' := by
  simpa [noBS, List.all_eq_true] using h

theorem noQuote_mem {s : String} (h : noQuote s = true) :
    ∀ c ∈ s.data, ¬c = '\x22' := by
  simpa [noQuote, List.all_eq_true] using h

theorem parse_template_noBS :
    ∀ repl : List Char, (∀ c ∈ repl, ¬c = '\\') →
      parse_template repl = .ok (repl.map TmplItem.ch) := by
  intro repl
  induction repl with
  | nil => intro _; rfl
  | cons c rest ih =>
    intro h
    show parse_templateAux (rest.length + 1) (c :: rest) =
      .ok ((c :: rest).map TmplItem.ch)
    simp only [parse_templateAux, if_neg (h c (by simp))]
    rw [show parse_templateAux rest.length rest = parse_template rest from rfl,
      ih fun x hx => h x (by simp [hx])]
    rfl

theorem parse_replCompiler (P : String) (hP : noBS P = true) :
    parse_template (replCompiler P).data =
      .ok ((replCompiler P).data.map TmplItem.ch) := by
  apply parse_template_noBS
  have hlitc : ∀ c ∈ litCompiler.data, ¬c = '\\' := by decide
  have hPm := noBS_mem hP
  intro c hc
  rw [replCompiler_data] at hc
  rcases List.mem_append.mp hc with h1 | h1
  · exact hlitc c h1
  · simp only [List.mem_cons, List.mem_append] at h1
    rcases h1 with h2 | h2 | h2 | h2
    · rw [h2]; decide
    · rw [h2]; decide
    · exact hPm c h2
    · simp at h2; rw [h2]; decide

theorem parse_replMiDebugger (P : String) (hP : noBS P = true) :
    parse_template (replMiDebugger P).data =
      .ok ((replMiDebugger P).data.map TmplItem.ch) := by
  apply parse_template_noBS
  have hlitd : ∀ c ∈ litMiDebugger.data, ¬c = '\\' := by decide
  have hPm := noBS_mem hP
  intro c hc
  rw [replMiDebugger_data] at hc
  rcases List.mem_append.mp hc with h1 | h1
  · exact hlitd c h1
  · simp only [List.mem_cons, List.mem_append] at h1
    rcases h1 with h2 | h2 | h2 | h2
    · rw [h2]; decide
    · rw [h2]; decide
    · exact hPm c h2
    · simp at h2; rw [h2]; decide

set_option maxRecDepth 100000 in
/-- The reconciler's `re.sub` on a generated IntelliSense document (the
platform name is one of the four `detect_os` results; the embedded value
has no quote or newline; the new value has no backslash, so the template
is constant and spliced verbatim): the call succeeds and exactly the
`compilerPath` field is replaced. -/
theorem pySubStr_ccpp (osn V P : String)
    (hos : osn = "Windows" ∨ osn = "Linux" ∨ osn = "macOS" ∨ osn = "Unknown")
    (hV : goodStr V = true) (hP : noBS P = true) :
    pySubStr litCompiler (replCompiler P) (ccpp_content osn V) =
      .ok (ccpp_content osn P) := by
  have hV' := goodStr_mem hV
  have hrun : pySubRun litCompiler.data ((replCompiler P).data.map TmplItem.ch)
      (ccpp_content osn V).data = (ccpp_content osn P).data := by
    rcases hos with h | h | h | h <;> subst h <;>
    · rw [ccpp_content_data, ccpp_content_data]
      rw [pySub_spliced litCompiler.data (replCompiler P).data _ V.data _
        (by decide) (by decide) hV' (by decide)]
      rw [replCompiler_data]
      simp [List.append_assoc]
  have hps : pySub litCompiler.data (replCompiler P).data
      (ccpp_content osn V).data = .ok ((ccpp_content osn P).data) := by
    unfold pySub
    rw [parse_replCompiler P hP]
    show Except.ok (pySubRun litCompiler.data
      ((replCompiler P).data.map TmplItem.ch) (ccpp_content osn V).data) = _
    rw [hrun]
  unfold pySubStr
  rw [hps]

theorem launch_content_data (n q : String) :
    (launch_content n q).data =
      launchPre.data ++ (n.data ++ (launchMidA.data ++
        (litMiDebugger.data ++ (' ' :: '\x22' :: (q.data ++ '\x22' ::
          launchR.data))))) := by
  simp [launch_content, litMiDebugger, String.data_append, debugger_field_data,
    quote_data, List.append_assoc]

set_option maxRecDepth 100000 in
/-- The reconciler's `re.sub` on a generated debugger-launch document
(project name quote-free; embedded value quote- and newline-free; new
value backslash-free): the call succeeds and exactly the
`miDebuggerPath` field is replaced. -/
theorem pySubStr_launch (n V P : String) (hn : goodStr n = true)
    (hV : goodStr V = true) (hP : noBS P = true) :
    pySubStr litMiDebugger (replMiDebugger P) (launch_content n V) =
      .ok (launch_content n P) := by
  have hV' := goodStr_mem hV
  have hn' := goodStr_mem hn
  have hrun : pySubRun litMiDebugger.data
      ((replMiDebugger P).data.map TmplItem.ch) (launch_content n V).data =
      (launch_content n P).data := by
    rw [launch_content_data, launch_content_data]
    rw [pySub_skip litMiDebugger.data ((replMiDebugger P).data.map TmplItem.ch)
      launchPre.data _ (by decide)]
    have hlit : litMiDebugger.data = '\x22' :: "miDebuggerPath\":".data := by
      decide
    rw [hlit,
      pySub_skip_safe ("miDebuggerPath\":".data)
        ((replMiDebugger P).data.map TmplItem.ch) n.data _ hn',
      ← hlit,
      pySub_spliced litMiDebugger.data (replMiDebugger P).data launchMidA.data
        V.data launchR.data (by decide) (by decide) hV' (by decide),
      replMiDebugger_data]
    simp [List.append_assoc]
  have hps : pySub litMiDebugger.data (replMiDebugger P).data
      (launch_content n V).data = .ok ((launch_content n P).data) := by
    unfold pySub
    rw [parse_replMiDebugger P hP]
    show Except.ok (pySubRun litMiDebugger.data
      ((replMiDebugger P).data.map TmplItem.ch) (launch_content n V).data) = _
    rw [hrun]
  unfold pySubStr
  rw [hps]

set_option maxRecDepth 100000 in
/-- Re-substituting the value a document already holds is the identity,
for any quote- and backslash-free value: if the value is newline-free the
field is replaced by itself; if it contains a newline the lazy `".*?"`
cannot close the field and the pattern matches nowhere. -/
theorem pySubStr_ccpp_self (osn P : String)
    (hos : osn = "Windows" ∨ osn = "Linux" ∨ osn = "macOS" ∨ osn = "Unknown")
    (hPq : noQuote P = true) (hPB : noBS P = true) :
    pySubStr litCompiler (replCompiler P) (ccpp_content osn P) =
      .ok (ccpp_content osn P) := by
  by_cases hnl : '\n' ∈ P.data
  · have hlit : litCompiler.data =
        '\x22' :: ("compilerPath\":" : String).data := by decide
    have hrun : pySubRun litCompiler.data
        ((replCompiler P).data.map TmplItem.ch)
        (ccpp_content osn P).data = (ccpp_content osn P).data := by
      rcases hos with h | h | h | h <;> subst h <;>
      · rw [ccpp_content_data, hlit]
        exact pySub_nomatch _ P.data _ _ _ (by decide) (by decide) (by decide)
          (noQuote_mem hPq) hnl (by decide) (by decide)
    have hps : pySub litCompiler.data (replCompiler P).data
        (ccpp_content osn P).data = .ok ((ccpp_content osn P).data) := by
      unfold pySub
      rw [parse_replCompiler P hPB]
      show Except.ok (pySubRun litCompiler.data
        ((replCompiler P).data.map TmplItem.ch) (ccpp_content osn P).data) = _
      rw [hrun]
    unfold pySubStr
    rw [hps]
  · have hgood : goodStr P = true := by
      simp only [goodStr, List.all_eq_true]
      intro c hc
      simp only [goodChar, Bool.not_eq_true', Bool.or_eq_false_iff,
        decide_eq_false_iff_not]
      exact ⟨noQuote_mem hPq c hc, fun h => hnl (h ▸ hc)⟩
    exact pySubStr_ccpp osn P P hos hgood hPB

set_option maxRecDepth 100000 in
/-- The launch-document analogue of the self-substitution identity (the
project name is quote- and newline-free; the value quote- and
backslash-free). -/
theorem pySubStr_launch_self (n P : String) (hn : goodStr n = true)
    (hPq : noQuote P = true) (hPB : noBS P = true) :
    pySubStr litMiDebugger (replMiDebugger P) (launch_content n P) =
      .ok (launch_content n P) := by
  by_cases hnl : '\n' ∈ P.data
  · have hn' := goodStr_mem hn
    have hlit : litMiDebugger.data =
        '\x22' :: ("miDebuggerPath\":" : String).data := by decide
    have hrun : pySubRun litMiDebugger.data
        ((replMiDebugger P).data.map TmplItem.ch)
        (launch_content n P).data = (launch_content n P).data := by
      rw [launch_content_data]
      rw [pySub_skip litMiDebugger.data
        ((replMiDebugger P).data.map TmplItem.ch) launchPre.data _ (by decide)]
      rw [hlit,
        pySub_skip_safe ("miDebuggerPath\":" : String).data
          ((replMiDebugger P).data.map TmplItem.ch) n.data _ hn']
      rw [pySub_nomatch _ P.data _ _ _ (by decide) (by decide) (by decide)
        (noQuote_mem hPq) hnl (by decide) (by decide)]
    have hps : pySub litMiDebugger.data (replMiDebugger P).data
        (launch_content n P).data = .ok ((launch_content n P).data) := by
      unfold pySub
      rw [parse_replMiDebugger P hPB]
      show Except.ok (pySubRun litMiDebugger.data
        ((replMiDebugger P).data.map TmplItem.ch) (launch_content n P).data) = _
      rw [hrun]
    unfold pySubStr
    rw [hps]
  · have hgood : goodStr P = true := by
      simp only [goodStr, List.all_eq_true]
      intro c hc
      simp only [goodChar, Bool.not_eq_true', Bool.or_eq_false_iff,
        decide_eq_false_iff_not]
      exact ⟨noQuote_mem hPq c hc, fun h => hnl (h ▸ hc)⟩
    exact pySubStr_launch n P P hn hgood hPB

/-! ## C4: reconcile idempotence -/

/-- One reconcile pass over a project whose two generated documents are
present in template shape: both tool-path fields are rewritten to the
currently resolved values, nothing else changes. -/
theorem reconcile_step (env : Env) (p n₀ osd : String) (cp : Option String)
    (dv : String)
    (hosd : osd = "Windows" ∨ osd = "Linux" ∨ osd = "macOS" ∨ osd = "Unknown")
    (hn₀ : goodStr n₀ = true)
    (hcp : (if detect_os env = "Linux" ∨ detect_os env = "macOS"
            then find_tool_path env "g++" else find_tool_path env "cl") = .ok cp)
    (hdv : (if detect_os env = "Linux" ∨ detect_os env = "macOS"
            then (find_tool_path env "gdb").map pyFStr else .ok "") = .ok dv)
    (hcpB : noBS (pyFStr cp) = true) (hdvB : noBS dv = true)
    (g : Fs) (W X : String)
    (hgc : g (ccppJsonPath p) = some (ccpp_content osd W))
    (hgl : g (launchJsonPath p) = some (launch_content n₀ X))
    (hW : goodStr W = true) (hX : goodStr X = true) :
    edit_project_configurations env p g =
      ((g.write (ccppJsonPath p) (ccpp_content osd (pyFStr cp))).write
        (launchJsonPath p) (launch_content n₀ dv), none) := by
  have hgl' : (g.write (ccppJsonPath p) (ccpp_content osd (pyFStr cp)))
      (launchJsonPath p) = some (launch_content n₀ X) := by
    simp only [Fs.write, ccppJsonPath, launchJsonPath]
    rw [if_neg (by simp)]
    exact hgl
  unfold edit_project_configurations
  simp only [hgc, hcp, pySubStr_ccpp osd W (pyFStr cp) hosd hW hcpB]
  simp only [hgl', hdv, pySubStr_launch n₀ X dv hn₀ hX hdvB]

/-- One reconcile pass over a project whose two generated documents
already hold the currently resolved values (quote- and backslash-free,
newlines allowed): both files are rewritten with unchanged contents. -/
theorem reconcile_step_self (env : Env) (p n₀ osd : String)
    (cp : Option String) (dv : String)
    (hosd : osd = "Windows" ∨ osd = "Linux" ∨ osd = "macOS" ∨ osd = "Unknown")
    (hn₀ : goodStr n₀ = true)
    (hcp : (if detect_os env = "Linux" ∨ detect_os env = "macOS"
            then find_tool_path env "g++" else find_tool_path env "cl") = .ok cp)
    (hdv : (if detect_os env = "Linux" ∨ detect_os env = "macOS"
            then (find_tool_path env "gdb").map pyFStr else .ok "") = .ok dv)
    (hcpQ : noQuote (pyFStr cp) = true) (hdvQ : noQuote dv = true)
    (hcpB : noBS (pyFStr cp) = true) (hdvB : noBS dv = true)
    (g : Fs)
    (hgc : g (ccppJsonPath p) = some (ccpp_content osd (pyFStr cp)))
    (hgl : g (launchJsonPath p) = some (launch_content n₀ dv)) :
    edit_project_configurations env p g =
      ((g.write (ccppJsonPath p) (ccpp_content osd (pyFStr cp))).write
        (launchJsonPath p) (launch_content n₀ dv), none) := by
  have hgl' : (g.write (ccppJsonPath p) (ccpp_content osd (pyFStr cp)))
      (launchJsonPath p) = some (launch_content n₀ dv) := by
    simp only [Fs.write, ccppJsonPath, launchJsonPath]
    rw [if_neg (by simp)]
    exact hgl
  unfold edit_project_configurations
  simp only [hgc, hcp, pySubStr_ccpp_self osd (pyFStr cp) hosd hcpQ hcpB]
  simp only [hgl', hdv, pySubStr_launch_self n₀ dv hn₀ hdvQ hdvB]

/-- **C4 (amended).**  Reconcile is idempotent on a project whose
generated documents exist in template shape (scaffolded from a quote- and
newline-free project name with quote- and newline-free embedded values),
provided the currently resolved tool-path values contain no double quote
and no backslash: the second run leaves every file exactly as the first
run left it.  Newlines in the resolved values are allowed — the second
pass then finds no match, because the lazy `".*?"` of the pattern does
not cross a newline. -/
theorem reconcile_idempotent (env : Env) (p n₀ osd V D : String) (fs₀ : Fs)
    (cp : Option String) (dv : String)
    (hosd : osd = "Windows" ∨ osd = "Linux" ∨ osd = "macOS" ∨ osd = "Unknown")
    (hn₀ : goodStr n₀ = true) (hV : goodStr V = true) (hD : goodStr D = true)
    (hccpp : fs₀ (ccppJsonPath p) = some (ccpp_content osd V))
    (hlaunch : fs₀ (launchJsonPath p) = some (launch_content n₀ D))
    (hcp : (if detect_os env = "Linux" ∨ detect_os env = "macOS"
            then find_tool_path env "g++" else find_tool_path env "cl") = .ok cp)
    (hcpQ : noQuote (pyFStr cp) = true)
    (hdv : (if detect_os env = "Linux" ∨ detect_os env = "macOS"
            then (find_tool_path env "gdb").map pyFStr else .ok "") = .ok dv)
    (hdvQ : noQuote dv = true)
    (hcpB : noBS (pyFStr cp) = true) (hdvB : noBS dv = true) :
    ∀ q, (edit_project_configurations env p
            (edit_project_configurations env p fs₀).1).1 q =
         (edit_project_configurations env p fs₀).1 q := by
  have h1 := reconcile_step env p n₀ osd cp dv hosd hn₀ hcp hdv hcpB hdvB
    fs₀ V D hccpp hlaunch hV hD
  have hc2 : ((fs₀.write (ccppJsonPath p) (ccpp_content osd (pyFStr cp))).write
      (launchJsonPath p) (launch_content n₀ dv)) (ccppJsonPath p) =
      some (ccpp_content osd (pyFStr cp)) := by
    simp [Fs.write, ccppJsonPath, launchJsonPath]
  have hl2 : ((fs₀.write (ccppJsonPath p) (ccpp_content osd (pyFStr cp))).write
      (launchJsonPath p) (launch_content n₀ dv)) (launchJsonPath p) =
      some (launch_content n₀ dv) := by
    simp [Fs.write]
  have h2 := reconcile_step_self env p n₀ osd cp dv hosd hn₀ hcp hdv
    hcpQ hdvQ hcpB hdvB
    ((fs₀.write (ccppJsonPath p) (ccpp_content osd (pyFStr cp))).write
      (launchJsonPath p) (launch_content n₀ dv))
    hc2 hl2
  intro q
  rw [h1]
  rw [show (((fs₀.write (ccppJsonPath p) (ccpp_content osd (pyFStr cp))).write
      (launchJsonPath p) (launch_content n₀ dv)), (none : Option PyErr)).1 =
      ((fs₀.write (ccppJsonPath p) (ccpp_content osd (pyFStr cp))).write
      (launchJsonPath p) (launch_content n₀ dv)) from rfl]
  rw [h2]
  simp only [Fs.write]
  split_ifs <;> rfl

set_option maxRecDepth 1000000 in
/-- **C4, counterexample.**  Reconcile is not idempotent for every
project/environment; each condition on the resolved values in the
amended claim is forced.  First conjunct (double quote): when the
resolved compiler path contains a `"`, the second run matches the lazy
`".*?"` against the quote inside the substituted value and rewrites the
document again, differently.  Second conjunct (backslash): when the
resolved path contains `\g<0>`, `re.sub` reads it as a reference to the
whole match, so the first run splices the matched field text into
itself and the second run expands the now-different leftmost match,
changing the document again. -/
theorem reconcile_not_idempotent_on_exotic_values :
    ((edit_project_configurations envQuotePath "demo"
        (edit_project_configurations envQuotePath "demo" fsQuoteDemo).1).1
      (ccppJsonPath "demo") ≠
     (edit_project_configurations envQuotePath "demo" fsQuoteDemo).1
      (ccppJsonPath "demo")) ∧
    ((edit_project_configurations envG0 "demo"
        (edit_project_configurations envG0 "demo" fsQuoteDemo).1).1
      (ccppJsonPath "demo") ≠
     (edit_project_configurations envG0 "demo" fsQuoteDemo).1
      (ccppJsonPath "demo")) := by
  exact ⟨by decide, by decide⟩

set_option maxRecDepth 1000000 in
theorem reconcile_idempotent_witness :
    (edit_project_configurations envLinuxFull "demo"
        (edit_project_configurations envLinuxFull "demo" fsDemoGen).1).1
      (ccppJsonPath "demo") =
    (edit_project_configurations envLinuxFull "demo" fsDemoGen).1
      (ccppJsonPath "demo") ∧
    (edit_project_configurations envLinuxFull "demo"
        (edit_project_configurations envLinuxFull "demo" fsDemoGen).1).1
      (launchJsonPath "demo") =
    (edit_project_configurations envLinuxFull "demo" fsDemoGen).1
      (launchJsonPath "demo") := by
  have T := reconcile_idempotent envLinuxFull "demo" "demo" "Linux"
    "/old/g++" "/old/gdb" fsDemoGen (some "/usr/bin/g++") "/usr/bin/gdb"
    (Or.inr (Or.inl rfl)) (by decide) (by decide) (by decide)
    (by decide) (by decide) (by decide) (by decide) (by decide) (by decide)
    (by decide) (by decide)
  exact ⟨T (ccppJsonPath "demo"), T (launchJsonPath "demo")⟩

set_option maxRecDepth 1000000 in
/-- **C5, counterexample.**  When the project name embedded in the
`program` field itself contains the text `", "miDebuggerPath": "x`,
`re.sub` also rewrites that earlier occurrence inside the `program`
field: reconcile does not alter *only* the designated path field, so the
document differs from the one in which only the designated field was
updated. -/
theorem reconcile_alters_nondesignated_field :
    (edit_project_configurations envGdbNew "p" fsBadName).1
      (launchJsonPath "p") ≠
    some (launch_content "demo\", \"miDebuggerPath\": \"x" "/new/gdb") := by
  decide

/-- **C5 (amended).**  On generated documents whose embedded project name
is quote-free and whose embedded tool-path values are quote- and
newline-free, and with currently resolved values free of backslashes
(a backslash-bearing value makes `re.sub` process the interpolated
replacement as escapes: a bad escape raises before anything is written,
and a group reference splices matched text), one reconcile run replaces
exactly the `compilerPath` / `miDebuggerPath` field value (the
surrounding template bytes — include paths, standard versions,
configuration name — are identical), and no other file of the project
changes. -/
theorem reconcile_targets_only_path_fields (env : Env) (p n₀ osd V D : String)
    (fs₀ : Fs) (cp : Option String) (dv : String)
    (hosd : osd = "Windows" ∨ osd = "Linux" ∨ osd = "macOS" ∨ osd = "Unknown")
    (hn₀ : goodStr n₀ = true) (hV : goodStr V = true) (hD : goodStr D = true)
    (hccpp : fs₀ (ccppJsonPath p) = some (ccpp_content osd V))
    (hlaunch : fs₀ (launchJsonPath p) = some (launch_content n₀ D))
    (hcp : (if detect_os env = "Linux" ∨ detect_os env = "macOS"
            then find_tool_path env "g++" else find_tool_path env "cl") = .ok cp)
    (hdv : (if detect_os env = "Linux" ∨ detect_os env = "macOS"
            then (find_tool_path env "gdb").map pyFStr else .ok "") = .ok dv)
    (hcpB : noBS (pyFStr cp) = true) (hdvB : noBS dv = true) :
    (edit_project_configurations env p fs₀).1 (ccppJsonPath p) =
      some (ccpp_content osd (pyFStr cp)) ∧
    (edit_project_configurations env p fs₀).1 (launchJsonPath p) =
      some (launch_content n₀ dv) ∧
    ∀ q, q ≠ ccppJsonPath p → q ≠ launchJsonPath p →
      (edit_project_configurations env p fs₀).1 q = fs₀ q := by
  have h1 := reconcile_step env p n₀ osd cp dv hosd hn₀ hcp hdv hcpB hdvB
    fs₀ V D hccpp hlaunch hV hD
  rw [h1]
  refine ⟨?_, ?_, ?_⟩
  · simp [Fs.write, ccppJsonPath, launchJsonPath]
  · simp [Fs.write]
  · intro q hq1 hq2
    simp only [Fs.write]
    rw [if_neg hq2, if_neg hq1]

set_option maxRecDepth 1000000 in
theorem reconcile_targets_only_path_fields_witness :
    (edit_project_configurations envLinuxFull "demo" fsDemoGen).1
      (ccppJsonPath "demo") =
      some (ccpp_content "Linux" (pyFStr (some "/usr/bin/g++"))) ∧
    (edit_project_configurations envLinuxFull "demo" fsDemoGen).1
      (launchJsonPath "demo") =
      some (launch_content "demo" "/usr/bin/gdb") ∧
    (edit_project_configurations envLinuxFull "demo" fsDemoGen).1
      (tasksJsonPath "demo") = fsDemoGen (tasksJsonPath "demo") := by
  have T := reconcile_targets_only_path_fields envLinuxFull "demo" "demo"
    "Linux" "/old/g++" "/old/gdb" fsDemoGen (some "/usr/bin/g++")
    "/usr/bin/gdb" (Or.inr (Or.inl rfl)) (by decide) (by decide) (by decide)
    (by decide) (by decide) (by decide) (by decide) (by decide) (by decide)
  exact ⟨T.1, T.2.1, T.2.2 (tasksJsonPath "demo") (by decide) (by decide)⟩

/-! ## C10: an unresolved compiler is written as the literal text None -/

/-- **C10.**  When the compiler cannot be located (`find_tool_path`
returns Python `None`), the IntelliSense writer still runs and
interpolates the absent value into the f-string, so the written
`compilerPath` field holds the literal four-character text `None`; the
reconciler's substitution writes the same literal into an existing
document.  (The debugger flag is taken false here; the IntelliSense
writer does not depend on it.) -/
theorem compiler_path_none_literal (env : Env) (name : String) (k : Bool)
    (fs₀ : Fs)
    (hq : (if detect_os env = "Linux" ∨ detect_os env = "macOS"
           then find_tool_path env "g++"
           else find_tool_path env "cl") = .ok none) :
    create_project_structure env name (detect_os env) true false k fs₀
        (ccppJsonPath name) = some (ccpp_content (detect_os env) "None") ∧
    (∃ A B : String, ccpp_content (detect_os env) "None" =
      A ++ "\"compilerPath\": \"None\"" ++ B) ∧
    ∀ (g : Fs) (pr osd W : String),
      (osd = "Windows" ∨ osd = "Linux" ∨ osd = "macOS" ∨ osd = "Unknown") →
      goodStr W = true →
      g (ccppJsonPath pr) = some (ccpp_content osd W) →
      g (launchJsonPath pr) = none →
      (edit_project_configurations env pr g).1 (ccppJsonPath pr) =
        some (ccpp_content osd "None") := by
  refine ⟨?_, ?_, ?_⟩
  · unfold create_project_structure create_vscode_config_files
    cases k <;>
      simp [hq, Fs.write, launchJsonPath, tasksJsonPath, settingsJsonPath,
        ccppJsonPath, cmakeListsPath, mainCppPath, pyFStr]
  · refine ⟨ccppPre ++ detect_os env ++ ccppMidA,
      ccppMidB ++ pyLower (detect_os env) ++ ccppPost, ?_⟩
    apply String.ext
    simp [ccpp_content, String.data_append, List.append_assoc]
  · intro g pr osd W hosd hW hgc hgl
    unfold edit_project_configurations
    simp only [hgc, hq]
    rw [show pyFStr none = "None" from rfl]
    simp only [pySubStr_ccpp osd W "None" hosd hW (by decide)]
    have hgl' : (g.write (ccppJsonPath pr) (ccpp_content osd "None"))
        (launchJsonPath pr) = none := by
      simp only [Fs.write, ccppJsonPath, launchJsonPath]
      rw [if_neg (by simp)]
      exact hgl
    simp only [hgl']
    simp [Fs.write]

set_option maxRecDepth 1000000 in
theorem compiler_path_none_literal_witness :
    create_project_structure envNoGpp "demo" (detect_os envNoGpp) true false
        true emptyFs (ccppJsonPath "demo") =
      some (ccpp_content (detect_os envNoGpp) "None") ∧
    (edit_project_configurations envNoGpp "demo"
        (emptyFs.write (ccppJsonPath "demo")
          (ccpp_content "Linux" "/old/g++"))).1 (ccppJsonPath "demo") =
      some (ccpp_content "Linux" "None") := by
  have T := compiler_path_none_literal envNoGpp "demo" true emptyFs (by decide)
  exact ⟨T.1, T.2.2
    (emptyFs.write (ccppJsonPath "demo") (ccpp_content "Linux" "/old/g++"))
    "demo" "Linux" "/old/g++" (Or.inr (Or.inl rfl)) (by decide) (by decide)
    (by decide)⟩
